import Mathlib

/-!
Verification development for the OMT forum-harvesting system.

The definitions below are shallow embeddings of the Python sources:
- src/crawler/src/crawl_one.py (fetch engine, structural parser, crawl
  orchestrator, quarantine downloader),
- src/connect/crawler/crawler_min.py (minimal crawler variant),
- src/crawler/src/crawler/src/postproc_darkforums.py (triage pipeline),
- src/run_darkforums_batches.py (batch escalation runner).

External library effects (HTTP transport, BeautifulSoup document model,
urljoin, sha256, timestamps) are passed in as explicit oracle parameters;
all in-repository logic (regexes, loops, filters, scoring) is embedded
directly.
-/

/-! ## Python-style string primitives -/

/-- ASCII whitespace, as stripped by Python str.strip and matched by
the regex class backslash-s (space, tab, newline, return, vtab, formfeed). -/
def isPyWs (c : Char) : Bool :=
  c = ' ' || c = '\t' || c = '\n' || c = '\r' || c = '\x0b' || c = '\x0c'

/-- Python str.strip on a character list. -/
def pyStripL (l : List Char) : List Char :=
  ((l.dropWhile isPyWs).reverse.dropWhile isPyWs).reverse

/-- Python str.strip. -/
def pyStrip (s : String) : String :=
  String.mk (pyStripL s.toList)

/-- Lower-case a character list (models Python str.lower / re.I on ASCII). -/
def lowerL (l : List Char) : List Char :=
  l.map Char.toLower

/-- Python "sub in s" substring test on character lists. -/
def subInL (sub : List Char) : List Char → Bool
  | [] => sub.isEmpty
  | c :: t => sub.isPrefixOf (c :: t) || subInL sub t

/-- Python "sub in s" substring test. -/
def subIn (sub s : String) : Bool :=
  subInL sub.toList s.toList

/-- Case-insensitive substring test (models a re.I literal search). -/
def subInCI (sub s : String) : Bool :=
  subInL (lowerL sub.toList) (lowerL s.toList)

/-- Case-insensitive suffix test. -/
def suffixCI (sub s : String) : Bool :=
  (lowerL sub.toList).isSuffixOf (lowerL s.toList)

/-- Python truthiness-based "x or default" for optional strings:
None and the empty string both fall through to the default. -/
def pyOr (o : Option String) (d : String) : String :=
  match o with
  | some s => if s = "" then d else s
  | none => d

/-- Python "x or None" on an optional string: an empty string becomes None. -/
def pyOrNone (o : Option String) : Option String :=
  match o with
  | some s => if s = "" then none else some s
  | none => none

/-- Python truthiness of an optional string (None and "" are falsy). -/
def pyTruthy (o : Option String) : Bool :=
  match o with
  | some s => !(s = "")
  | none => false

/-- Interpret a digit string as a Nat (models Python int on a digit string). -/
def digitsToNat (l : List Char) : Nat :=
  l.foldl (fun acc c => acc * 10 + (c.toNat - '0'.toNat)) 0

/-- Python str.split with a one-character separator, on character lists
(empty parts preserved, the empty input giving one empty part). -/
def splitOnChar (c : Char) : List Char → List (List Char)
  | [] => [[]]
  | x :: t =>
    let r := splitOnChar c t
    if x = c then [] :: r
    else
      match r with
      | [] => [[x]]
      | h :: rest => (x :: h) :: rest

/-- Python str slicing s[:n] (by character count). -/
def pyTake (s : String) (n : Nat) : String :=
  String.mk (s.toList.take n)

/-- Python str.lower. -/
def pyLower (s : String) : String :=
  String.mk (lowerL s.toList)

/-! ## Attachment-URL heuristic

Embeds ATTACHMENT_URL_PATTERN and is_attachment_url, identical in
src/crawler/src/crawl_one.py and src/connect/crawler/crawler_min.py:
a case-insensitive search for one of six path segments, or a dot
followed by one of the listed file extensions followed by end-of-string
or a question mark. -/

def attachmentSegments : List String :=
  ["/attachment", "/attachments", "/upload", "/uploads", "/files", "/download"]

def attachmentExts : List String :=
  ["zip", "7z", "rar", "exe", "iso", "apk", "jar", "bat", "ps1", "dll",
   "scr", "docm", "xlsm", "pdf", "gz", "bz2", "xz"]

/-- The extension alternative of the pattern: a dot, the extension, then
either end of string or a literal question mark. -/
def extMatches (url ext : String) : Bool :=
  suffixCI ("." ++ ext) url || subInCI ("." ++ ext ++ "?") url

/-- Embedding of is_attachment_url (crawl_one.py line 88, crawler_min.py
line 28): regex search of ATTACHMENT_URL_PATTERN over the URL. -/
def is_attachment_url (url : String) : Bool :=
  attachmentSegments.any (fun seg => subInCI seg url)
    || attachmentExts.any (fun ext => extMatches url ext)

/-! ## URL canonicalization (postproc_darkforums.py canon_thread_url)

The source strips a trailing pagination parameter with
re.sub of the anchored pattern "[?&]page=digits$" (case-insensitive).
Because the digit run must reach the end of the string, at most one
occurrence can match, namely the suffix consisting of a separator,
the word page, an equals sign and a nonempty trailing digit run. -/

/-- If the URL ends in a pagination parameter, return the part before it. -/
def trailingPageParam (u : String) : Option String :=
  let r := u.toList.reverse
  let ds := r.takeWhile Char.isDigit
  if ds.isEmpty then none
  else
    match r.drop ds.length with
    | '=' :: e :: g :: a :: p :: sep :: rest =>
      if lowerL [p, a, g, e] = ['p', 'a', 'g', 'e'] && (sep = '?' || sep = '&') then
        some (String.mk rest.reverse)
      else none
    | _ => none

/-- Embedding of canon_thread_url (postproc_darkforums.py lines 112-114). -/
def canon_thread_url (u : String) : String :=
  (trailingPageParam u).getD u

/-! ## Filename sanitization (crawl_one.py sanitize_filename) -/

/-- The safe filename alphabet of the regex class A-Z a-z 0-9 dot
underscore hyphen. -/
def safeFileChar (c : Char) : Bool :=
  ('A' ≤ c && c ≤ 'Z') || ('a' ≤ c && c ≤ 'z') || ('0' ≤ c && c ≤ '9')
    || c = '.' || c = '_' || c = '-'

/-- Helper for the global re.sub of one-or-more unsafe characters with a
single underscore: the flag records whether the scanner is inside an
unsafe run whose replacement underscore has already been emitted. -/
def subUnsafeAux : Bool → List Char → List Char
  | _, [] => []
  | inRun, c :: t =>
    if safeFileChar c then c :: subUnsafeAux false t
    else if inRun then subUnsafeAux true t
    else '_' :: subUnsafeAux true t

/-- Global re.sub of one-or-more unsafe characters with a single
underscore, on character lists. -/
def subUnsafe (l : List Char) : List Char :=
  subUnsafeAux false l

/-- Python str.rpartition at the last occurrence of a character:
returns the part before, whether the separator was found, and the part
after.  When the separator does not occur the before-part is empty and
the after-part is the whole input, matching Python. -/
def pyRpartition (c : Char) (l : List Char) : List Char × Bool × List Char :=
  let r := l.reverse
  match r.findIdx? (· = c) with
  | none => ([], false, l)
  | some i => ((r.drop (i + 1)).reverse, true, (r.take i).reverse)

/-- Embedding of sanitize_filename (crawl_one.py lines 675-681):
strip, fall back when empty, replace unsafe runs with an underscore,
and truncate names longer than 120 characters preserving a trailing
extension where present. -/
def sanitize_filename (name : Option String) (fallback : String) : String :=
  let n0 := pyOr (some (pyStrip (pyOr name ""))) fallback
  let n1 := subUnsafe n0.toList
  if n1.length > 120 then
    let (root, hasDot, ext) := pyRpartition '.' n1
    let trunc := root.take 80 ++ (if hasDot then '.' :: ext else [])
    if trunc.isEmpty then String.mk (n1.take 120) else String.mk trunc
  else String.mk n1

/-! ## Triage pipeline (postproc_darkforums.py)

Raw input records are JSON lines; external library effects (sha256 via
hash_text, datetime.fromisoformat validation, the current timestamp) are
supplied through a PyEnv oracle.  All regex logic of the file is embedded
directly. -/

/-- Oracle bundle for the library calls of postproc_darkforums.py:
the current UTC timestamp, success of datetime.fromisoformat on the
Z-normalized string, and hash_text (sha256 hexdigest). -/
structure PyEnv where
  now : String
  isoOk : String → Bool
  hash_text : String → String

/-- The known challenge-page titles, CF_TITLES of postproc_darkforums.py. -/
def CF_TITLES : List String :=
  ["Checking your browser before accessing darkforums.st", "Just a moment..."]

/-- Python str.rstrip with a single character. -/
def pyRstripChar (c : Char) (s : String) : String :=
  String.mk ((s.toList.reverse.dropWhile (· = c)).reverse)

/-- The URL-slug branch of normalize_title: last path segment of the
slash-right-stripped URL, cut at the first question mark, hyphens
replaced by spaces, stripped. -/
def slug_of (url : String) : String :=
  let lastSeg := (splitOnChar '/' (pyRstripChar '/' url).toList).getLast?.getD []
  let beforeQ := (splitOnChar '?' lastSeg).head?.getD []
  pyStrip (String.mk (beforeQ.map (fun c => if c = '-' then ' ' else c)))

/-- Embedding of normalize_title (postproc_darkforums.py lines 59-63):
keep a nonblank title that is not a known challenge title, otherwise
derive a slug from the URL, falling back to the URL itself. -/
def normalize_title (title : Option String) (url : String) : String :=
  match title with
  | some t =>
    if !(t = "") && !(pyStrip t = "") && !(CF_TITLES.contains t) then pyStrip t
    else (let s := slug_of url; if s = "" then url else s)
  | none => (let s := slug_of url; if s = "" then url else s)

/-- Embedding of is_cloudflare_block (postproc_darkforums.py lines 65-72);
posts is always a JSON list in the embedding, so the isinstance guard of
the zero-post test is always true. -/
def is_cloudflare_block (title : Option String) (postsLen : Nat) (keepCf : Bool) : Bool :=
  if keepCf then false
  else if (match title with | some t => CF_TITLES.contains t | none => false) then true
  else postsLen == 0

/-- ASCII model of the regex word class backslash-w. -/
def isWordChar (c : Char) : Bool :=
  c.isAlphanum || c = '_'

/-- Word boundary between two adjacent characters (either may be absent
at the edges of the text). -/
def bAt (a b : Option Char) : Bool :=
  (match a with | some c => isWordChar c | none => false)
    != (match b with | some c => isWordChar c | none => false)

/-- Scanner for a word-boundary-delimited literal: tracks the previous
character to decide the left boundary. -/
def containsWordAux (w : List Char) : Option Char → List Char → Bool
  | _, [] => false
  | prev, c :: t =>
    (w.isPrefixOf (c :: t) && bAt prev w.head?
      && bAt w.getLast? (((c :: t).drop w.length).head?))
    || containsWordAux w (some c) t

/-- Regex search of a literal wrapped in word boundaries, as in the
KEYWORDS patterns. -/
def containsWord (w t : List Char) : Bool :=
  containsWordAux w none t

/-- The KEYWORDS table of postproc_darkforums.py, in dict order; the
alternation national-space-optional-id is expanded into its two literal
forms. -/
def keywordTable : List (String × List String) :=
  [("db_leak", ["leak", "database", "dump", "combo", "breach", "exfil"]),
   ("gov_id", ["ssn", "sin", "aadhaar", "passport", "cnic", "nationalid", "national id"]),
   ("gaming", ["steam", "pubg", "gta", "freefire", "ubisoft", "game"]),
   ("source", ["source code", "sdk", "repo", "src"]),
   ("account", ["account", "credentials", "login", "user:pass", "mail access"])]

/-- Code-point order on character lists, as used by Python sorted. -/
def charListLtB : List Char → List Char → Bool
  | [], [] => false
  | [], _ :: _ => true
  | _ :: _, [] => false
  | a :: as, b :: bs => if a.toNat < b.toNat then true else if a = b then charListLtB as bs else false

def strLtB (a b : String) : Bool :=
  charListLtB a.toList b.toList

/-- Insert into a sorted duplicate-free list. -/
def insSortedStr (x : String) : List String → List String
  | [] => [x]
  | y :: ys => if x = y then y :: ys else if strLtB x y then x :: y :: ys else y :: insSortedStr x ys

/-- Python sorted(set(l)) for strings. -/
def sortedDedupStr (l : List String) : List String :=
  l.foldl (fun acc x => insSortedStr x acc) []

/-- Embedding of tag_keywords (postproc_darkforums.py lines 74-82):
lower-case the text, collect every category with a matching pattern,
and return the sorted set of category names. -/
def tag_keywords (text : String) : List String :=
  if text = "" then []
  else
    let t := lowerL text.toList
    sortedDedupStr ((keywordTable.filter (fun kp => kp.2.any (fun w => containsWord (w.toList) t))).map (·.1))

/-- Scanner for RE_TELEGRAM: an at-sign not preceded by a word character,
followed by at least four word characters (greedy); scanning resumes
after each match.  The fuel is at least the text length, which bounds
the number of scanning steps. -/
def tgScanAux : Nat → Option Char → List Char → List String
  | 0, _, _ => []
  | _ + 1, _, [] => []
  | fuel + 1, prev, c :: t =>
    if c = '@' && !(match prev with | some p => isWordChar p | none => false) then
      let run := t.takeWhile isWordChar
      if run.length ≥ 4 then
        String.mk run :: tgScanAux fuel (some (run.getLastD c)) (t.drop run.length)
      else tgScanAux fuel (some c) t
    else tgScanAux fuel (some c) t

/-- One extracted monetary amount: optional upper-cased currency code and
integer value. -/
structure PriceRec where
  currency : Option String
  value : Nat
deriving Repr, DecidableEq

/-- Case-insensitive literal token match at the head of the list,
returning the matched text and the rest. -/
def matchTok (tok : List Char) (l : List Char) : Option (List Char × List Char) :=
  if lowerL (l.take tok.length) = lowerL tok && tok.length ≤ l.length then
    some (l.take tok.length, l.drop tok.length)
  else none

/-- Alternation USD, dollar sign, IDR of RE_PRICE, in pattern order. -/
def matchCur (l : List Char) : Option (List Char × List Char) :=
  match matchTok ['U', 'S', 'D'] l with
  | some r => some r
  | none =>
    match matchTok ['$'] l with
    | some r => some r
    | none => matchTok ['I', 'D', 'R'] l

/-- The greedy star over separator-plus-exactly-three-digits groups in the
first value alternative of RE_PRICE, with a fuel bound of at least the
list length. -/
def thousandsStar : Nat → List Char → List Char × List Char
  | 0, l => ([], l)
  | _ + 1, [] => ([], [])
  | fuel + 1, c :: t =>
    if c = '.' || c = ',' then
      let ds := t.takeWhile Char.isDigit
      if ds.length ≥ 3 then
        let r := thousandsStar fuel (t.drop 3)
        (c :: ds.take 3 ++ r.1, r.2)
      else ([], c :: t)
    else ([], c :: t)

/-- The mandatory value group of RE_PRICE: one-to-three digits followed by
thousands groups, or a bare digit run.  The bare-digit-run alternative of
the source pattern is tried second and needs a leading digit just like the
first alternative, so it can never fire when the first fails; both
alternatives therefore fail exactly when no digit is present. -/
def matchValue (l : List Char) : Option (List Char × List Char) :=
  let run := l.takeWhile Char.isDigit
  if run.isEmpty then none
  else
    let d := run.take 3
    let r := thousandsStar (l.length + 1) (l.drop d.length)
    some (d ++ r.1, r.2)

/-- One attempted RE_PRICE match at the current position, following the
backtracking order of the optional currency prefix. -/
def priceMatchAt (l : List Char) : Option (Option (List Char) × List Char × List Char) :=
  let withCur :=
    match matchCur l with
    | some (cur, rest1) =>
      match matchValue (rest1.dropWhile isPyWs) with
      | some (v, rest2) => some (some cur, v, rest2)
      | none => none
    | none => none
  let core :=
    match withCur with
    | some r => some r
    | none =>
      match matchValue l with
      | some (v, rest2) => some (none, v, rest2)
      | none => none
  match core with
  | some (cur, v, rest2) =>
    let rest3 := rest2.dropWhile isPyWs
    match matchCur rest3 with
    | some (_, rest4) => some (cur, v, rest4)
    | none => some (cur, v, rest3)
  | none => none

/-- Normalize a matched value: drop the separators and read the digits,
as int of the comma-and-dot-stripped string. -/
def priceValue (v : List Char) : Nat :=
  digitsToNat (v.filter (fun c => c ≠ ',' && c ≠ '.'))

/-- Fuel-driven findall scanner for RE_PRICE; the fuel is at least the
text length, which bounds the number of scanning steps. -/
def priceScanAux : Nat → List Char → List PriceRec
  | 0, _ => []
  | _ + 1, [] => []
  | fuel + 1, c :: t =>
    match priceMatchAt (c :: t) with
    | some (cur, v, rest) =>
      { currency := cur.map (fun cs => String.mk (cs.map Char.toUpper)), value := priceValue v }
        :: priceScanAux fuel rest
    | none => priceScanAux fuel t

/-- Embedding of extract_contacts_and_prices (postproc_darkforums.py
lines 84-96): telegram handles via RE_TELEGRAM as a sorted set with an
at-sign prefix, and monetary amounts via RE_PRICE findall in order. -/
def extract_contacts_and_prices (text : String) : List String × List PriceRec :=
  if text = "" then ([], [])
  else
    (sortedDedupStr ((tgScanAux (text.length + 1) none text.toList).map (fun h => "@" ++ h)),
     priceScanAux (text.length + 1) text.toList)

/-- Matcher for one bracketed font tag at the head of the list: an open
bracket, an optional slash, the word font case-insensitively, any
non-bracket characters, then a closing bracket; returns the rest. -/
def fontMatchAt (l : List Char) : Option (List Char) :=
  match l with
  | '[' :: r =>
    let r2 := match r with | '/' :: rr => rr | _ => r
    if lowerL (r2.take 4) = ['f', 'o', 'n', 't'] && 4 ≤ r2.length then
      let r3 := r2.drop 4
      let body := r3.takeWhile (· ≠ ']')
      match r3.drop body.length with
      | ']' :: rest => some rest
      | _ => none
    else none
  | _ => none

/-- Fuel-driven global re.sub of the font-tag pattern with the empty
string. -/
def fontSubAux : Nat → List Char → List Char
  | 0, l => l
  | _ + 1, [] => []
  | fuel + 1, c :: t =>
    match fontMatchAt (c :: t) with
    | some rest => fontSubAux fuel rest
    | none => c :: fontSubAux fuel t

def fontSub (l : List Char) : List Char :=
  fontSubAux (l.length + 1) l

/-- Global re.sub of one-or-more whitespace characters with a single
space; the flag records an already-replaced run. -/
def wsCollapseAux : Bool → List Char → List Char
  | _, [] => []
  | inWs, c :: t =>
    if isPyWs c then
      if inWs then wsCollapseAux true t else ' ' :: wsCollapseAux true t
    else c :: wsCollapseAux false t

def wsCollapse (l : List Char) : List Char :=
  wsCollapseAux false l

/-- A post object as read from a JSON line.  The pipeline only ever reads
and writes the four fields below; attachment metadata carried inside raw
posts is never consulted and is not modeled. -/
structure PostObj where
  post_url : Option String
  author : Option String
  posted_at : Option String
  content : Option String
deriving Repr, DecidableEq

/-- Embedding of clean_post (postproc_darkforums.py lines 98-110): strip
and de-noise the content (font tags removed, whitespace collapsed),
normalize empty content and author to None, and replace an unparsable
nonempty timestamp with the current time. -/
def clean_post (env : PyEnv) (p : PostObj) : PostObj :=
  let c0 := pyStrip (pyOr p.content "")
  let c1 := fontSub c0.toList
  let c2 := pyStrip (String.mk (wsCollapse c1))
  { p with
    content := pyOrNone (some c2),
    author := pyOrNone p.author,
    posted_at :=
      match p.posted_at with
      | some ts => if !(ts = "") && !(env.isoOk ts) then some env.now else some ts
      | none => none }

/-- A thread record as read from a JSON line of the crawl log. -/
structure RawRecord where
  source : Option String
  thread_url : Option String
  title : Option String
  posts : List PostObj
  thread_hash : Option String
  fetched_at : Option String
deriving Repr, DecidableEq

/-- One line of the input log: blank, malformed JSON, or a record. -/
inductive InLine where
  | blank
  | bad
  | record (r : RawRecord)
deriving Repr, DecidableEq

/-- A filtered triage record as built by filter_records.  The contacts
dict is flattened to its telegram list (absent encoded as empty). -/
structure TriageRec where
  source : String
  thread_url : String
  canon_url : String
  title : String
  thread_hash : String
  fetched_at : Option String
  post_count : Nat
  posts : List PostObj
  tags : List String
  contacts_telegram : List String
  prices : List PriceRec
deriving Repr, DecidableEq

/-- Mutable state of one filter_records run. -/
structure FiltState where
  seen_threads : List String
  seen_posts : List String
  total : Nat
  kept : Nat
  out_records : List TriageRec
  csv_rows : List (List String)
deriving Repr, DecidableEq

def FiltState.init : FiltState :=
  ⟨[], [], 0, 0, [], []⟩

/-- The per-post normalization loop inside filter_records: clean each
post, apply the minimum-length filter, and deduplicate on the hash of
permalink and content, threading the seen-post set. -/
def normPostsAux (env : PyEnv) (minChars : Nat) :
    List PostObj → List String → List PostObj × List String
  | [], seen => ([], seen)
  | p :: rest, seen =>
    let q := clean_post env p
    if minChars > 0 && (match q.content with | none => true | some c => c.length < minChars) then
      normPostsAux env minChars rest seen
    else
      let phash := env.hash_text (pyOr q.post_url "" ++ "|" ++ pyOr q.content "")
      if seen.contains phash then normPostsAux env minChars rest seen
      else
        let (qs, seen2) := normPostsAux env minChars rest (phash :: seen)
        (q :: qs, seen2)

/-- The content sample used for tagging: first post plus up to two more,
or the title for an empty thread. -/
def sampleOf (title : String) (norm_posts : List PostObj) : String :=
  match norm_posts with
  | [] => title
  | p :: rest =>
    String.intercalate " " (pyOr p.content "" :: (rest.take 2).map (fun q => pyOr q.content ""))

/-- Processing of one input line by filter_records (postproc_darkforums.py
lines 131-201), threading the filter state. -/
def processLine (env : PyEnv) (excl : String → Bool) (keepCf : Bool)
    (minChars : Nat) (allowEmpty : Bool) (st : FiltState) : InLine → FiltState
  | .blank => st
  | .bad => { st with total := st.total + 1 }
  | .record obj =>
    let st := { st with total := st.total + 1 }
    let url_raw := pyOr obj.thread_url ""
    let url := canon_thread_url url_raw
    let title := normalize_title obj.title url_raw
    let posts := obj.posts
    if excl url_raw then st
    else if is_cloudflare_block obj.title posts.length keepCf then st
    else
      let np := normPostsAux env minChars posts st.seen_posts
      let norm_posts := np.1
      let st := { st with seen_posts := np.2 }
      if norm_posts.isEmpty && !allowEmpty then st
      else
        let thread_key := pyOr obj.thread_hash (env.hash_text url)
        if st.seen_threads.contains thread_key then st
        else
          let st := { st with seen_threads := thread_key :: st.seen_threads }
          let sample := sampleOf title norm_posts
          let txt := title ++ " " ++ sample
          let tags := tag_keywords txt
          let cp := extract_contacts_and_prices txt
          let r : TriageRec :=
            { source := pyOr obj.source "darkforums"
              thread_url := url_raw
              canon_url := url
              title := title
              thread_hash := thread_key
              fetched_at := obj.fetched_at
              post_count := norm_posts.length
              posts := norm_posts
              tags := tags
              contacts_telegram := cp.1
              prices := cp.2 }
          let snippet :=
            match norm_posts with
            | [] => ""
            | p :: _ => String.mk (((pyOr p.content "").toList.take 160).map
                (fun c => if c = '\n' then ' ' else c))
          let row := [pyOr (some r.canon_url) r.thread_url, r.title,
                      toString r.post_count, String.intercalate "|" tags,
                      String.intercalate "," cp.1, snippet]
          { st with kept := st.kept + 1,
                    out_records := st.out_records ++ [r],
                    csv_rows := st.csv_rows ++ [row] }

/-- Embedding of filter_records (postproc_darkforums.py lines 117-203):
fold the line processor over the input, returning the surviving records,
the summary rows, and the total and kept counters. -/
def filter_records (env : PyEnv) (lines : List InLine) (excl : String → Bool)
    (keepCf : Bool) (minChars : Nat) (allowEmpty : Bool) :
    List TriageRec × List (List String) × Nat × Nat :=
  let st := lines.foldl (processLine env excl keepCf minChars allowEmpty) FiltState.init
  (st.out_records, st.csv_rows, st.total, st.kept)

/-- The strict exclusion regex alternatives (STRICT_EXCLUDE_URL_PATTERNS),
as a case-insensitive search over the raw thread URL. -/
def subAnnouncement (u : String) : Bool :=
  subInCI "/Announcement-" u

/-- Search for the forum-root pattern: a forum path segment extending to
the end of the string with at least one alphanumeric-or-hyphen character. -/
def forumRootAux : List Char → Bool
  | [] => false
  | c :: t =>
    (['/', 'f', 'o', 'r', 'u', 'm', '-'].isPrefixOf (c :: t)
      && (let rest := (c :: t).drop 7
          !rest.isEmpty && rest.all (fun d => d.isAlphanum || d = '-')))
    || forumRootAux t

def subForumRoot (u : String) : Bool :=
  forumRootAux (lowerL u.toList)

/-- Search for the anchored action-only pattern of the exclusion lists. -/
def subActionAnchor (u : String) : Bool :=
  ["?action=newpost", "&action=newpost", "?action=lastpost", "&action=lastpost"].any
    (fun s => suffixCI s u)

/-- Search for the anchored pagination pattern of the strict list. -/
def subPageAnchor (u : String) : Bool :=
  (trailingPageParam u).isSome

/-- Compiled STRICT_EXCLUDE_URL_PATTERNS search. -/
def STRICT_EXCLUDE (u : String) : Bool :=
  subAnnouncement u || subForumRoot u || subActionAnchor u || subPageAnchor u

/-- Compiled RELAXED_EXCLUDE_URL_PATTERNS search (pagination allowed). -/
def RELAXED_EXCLUDE (u : String) : Bool :=
  subAnnouncement u || subForumRoot u || subActionAnchor u

/-- The high-value tag set of triage_score. -/
def hvTags : List String :=
  ["db_leak", "source", "account"]

/-- The unanchored action-link search of triage_score. -/
def actionUrlSearch (u : String) : Bool :=
  ["?action=newpost", "&action=newpost", "?action=lastpost", "&action=lastpost"].any
    (fun s => subInCI s u)

/-- Embedding of triage_score (postproc_darkforums.py lines 219-240):
integer score accumulated over the positive and negative signals. -/
def triage_score (r : TriageRec) : Int :=
  let title := r.title
  let tags := r.tags
  let post_count := r.post_count
  let first_len : Nat := match r.posts with | [] => 0 | p :: _ => (pyOr p.content "").length
  let s : Int := 0
  let s := if hvTags.any (fun t => tags.contains t) then s + 2 else s
  let s := if !r.contacts_telegram.isEmpty then s + 1 else s
  let s := if first_len ≥ 80 then s + 1 else s
  let s := if post_count ≥ 3 then s + 1 else s
  let s := if CF_TITLES.contains title then s - 2 else s
  let s := if actionUrlSearch r.thread_url then s - 1 else s
  s

/-- Embedding of triage_split (postproc_darkforums.py lines 242-255):
keep at or above the keep threshold, drop below the drop threshold with
posts cleared and the other fields retained, review otherwise. -/
def triage_split (records : List TriageRec) (keep_th drop_th : Int) :
    List TriageRec × List TriageRec × List TriageRec :=
  records.foldl
    (fun acc r =>
      let s := triage_score r
      if s ≥ keep_th then (acc.1 ++ [r], acc.2.1, acc.2.2)
      else if s < drop_th then (acc.1, acc.2.1, acc.2.2 ++ [{ r with posts := [] }])
      else (acc.1, acc.2.1 ++ [r], acc.2.2))
    ([], [], [])

/-! ## Fetch engine (crawl_one.py RequestsEngine and PlaywrightEngine)

The HTTP transport is an oracle mapping a URL to a response; the
embedding returns both the list of URLs actually requested over the
network (in order) and the result, so that fail-before-any-request is
expressible.  The same function embeds RequestsEngine._safe_get_html of
crawl_one.py and safe_get_html of crawler_min.py, whose logic is
identical (they differ only in the Python exception classes raised). -/

/-- One HTTP response as observed by the engine: status code, optional
headers, and the decoded streamed body (byte counts modeled as character
counts). -/
structure HttpResponse where
  status : Nat
  location : Option String
  contentDisposition : Option String
  contentType : Option String
  contentLength : Option String
  body : String

/-- The typed failure modes of the fetch engine, one per raise site. -/
inductive FetchErr where
  | blockedUrl (u : String)
  | redirectedBlocked (u : String)
  | attachmentDisposition
  | nonHtmlContentType (ct : String)
  | tooLargeHeader (cl : String)
  | tooLargeBody
  | tooManyRedirects
deriving Repr, DecidableEq

/-- The HTML content-type allowlist HTML_CT_ALLOWED. -/
def HTML_CT_ALLOWED : List String :=
  ["text/html", "application/xhtml+xml"]

/-- Parse a Content-Type header as the source does: default the missing
header to empty, split at the semicolon, strip and lower-case. -/
def ctParse (o : Option String) : String :=
  pyLower (pyStrip (String.mk ((splitOnChar ';' (pyOr o "").toList).head?.getD [])))

/-- The Content-Length header check of the engine: present, nonempty,
all digits, and numerically above the ceiling. -/
def clTooLarge (o : Option String) (maxBytes : Nat) : Bool :=
  match o with
  | some cl => !(cl = "") && cl.toList.all Char.isDigit && digitsToNat cl.toList > maxBytes
  | none => false

/-- The manual redirect loop of _safe_get_html: five bounded rounds, each
issuing one GET; a redirect response with a Location header re-checks the
attachment heuristic on the joined target and continues, any other
response goes through the disposition, content-type and size guards. -/
def safeGetLoop (net : String → HttpResponse) (joinUrl : String → String → String)
    (maxBytes : Nat) : Nat → String → List String → List String × Except FetchErr String
  | 0, _, trace => (trace.reverse, .error .tooManyRedirects)
  | n + 1, current, trace =>
    let r := net current
    let trace := current :: trace
    match (if 300 ≤ r.status && r.status < 400 then r.location else none) with
    | some loc =>
      let nxt := joinUrl current loc
      if is_attachment_url nxt then (trace.reverse, .error (.redirectedBlocked nxt))
      else safeGetLoop net joinUrl maxBytes n nxt trace
    | none =>
      let cd := pyLower (pyOr r.contentDisposition "")
      if subIn "attachment" cd then (trace.reverse, .error .attachmentDisposition)
      else
        let ct := ctParse r.contentType
        if !(HTML_CT_ALLOWED.contains ct) then (trace.reverse, .error (.nonHtmlContentType ct))
        else if clTooLarge r.contentLength maxBytes then
          (trace.reverse, .error (.tooLargeHeader (pyOr r.contentLength "")))
        else if r.body.length > maxBytes then (trace.reverse, .error .tooLargeBody)
        else (trace.reverse, .ok r.body)

/-- Embedding of RequestsEngine._safe_get_html (crawl_one.py lines
138-180) and safe_get_html (crawler_min.py lines 46-88): the attachment
heuristic is checked before the redirect loop ever touches the network. -/
def safe_get_html (net : String → HttpResponse) (joinUrl : String → String → String)
    (maxBytes : Nat) (url : String) : List String × Except FetchErr String :=
  if is_attachment_url url then ([], .error (.blockedUrl url))
  else safeGetLoop net joinUrl maxBytes 5 url []

/-- Embedding of PlaywrightEngine.fetch_html (crawl_one.py lines
219-240): the attachment heuristic is checked before the page is opened;
the rendered document (render oracle) is then size-checked. -/
def playwright_fetch_html (render : String → String) (maxBytes : Nat) (url : String) :
    List String × Except FetchErr String :=
  if is_attachment_url url then ([], .error (.blockedUrl url))
  else
    let html := render url
    if html.length > maxBytes then ([url], .error .tooLargeBody)
    else ([url], .ok html)

/-! ## Structural parser (crawl_one.py _pick_one and _parse_thread)

A BeautifulSoup node is modeled as a tree carrying its two get_text
renderings, its attributes, its select results keyed by CSS selector
string (a missing key selects nothing, an explicit none models a raising
selector, caught by the source and treated as no match), and its first
anchor descendant (find of the tag a). -/

inductive Node where
  | mk (textJoin textStrip : String) (attrs : List (String × String))
       (queries : List (String × Option (List Node))) (firstA : Option Node)

def Node.textJoin : Node → String
  | .mk a _ _ _ _ => a

def Node.textStrip : Node → String
  | .mk _ b _ _ _ => b

def Node.attr : Node → String → Option String
  | .mk _ _ attrs _ _, k => attrs.lookup k

/-- Result of soup.select wrapped in the try-except of the source:
an exception (explicit none) and a missing selector both yield no
matches. -/
def Node.selectSafe : Node → String → List Node
  | .mk _ _ _ qs _, css => ((qs.lookup css).getD (some [])).getD []

def Node.firstA : Node → Option Node
  | .mk _ _ _ _ fa => fa

/-- Embedding of _pick_one with many=False (crawl_one.py lines 244-258):
first candidate selector with any match wins; empty candidates are
skipped.  A missing or string-valued config entry is modeled as the
empty or singleton candidate list. -/
def pick_one (n : Node) : List String → Option Node
  | [] => none
  | css :: rest =>
    if css = "" then pick_one n rest
    else
      match n.selectSafe css with
      | [] => pick_one n rest
      | x :: _ => some x

/-- Embedding of _pick_one with many=True. -/
def pick_many (n : Node) : List String → List Node
  | [] => []
  | css :: rest =>
    if css = "" then pick_many n rest
    else
      match n.selectSafe css with
      | [] => pick_many n rest
      | x :: xs => x :: xs

/-- Per-forum selector configuration (one selectors.yaml entry), after
the string-or-list coercions of the source. -/
structure SelCfg where
  list_urls : List String
  thread_link : List String
  next_page : List String
  thread_title : List String
  post_container : List String
  content : List String
  author : List String
  posted_time : List String
  post_permalink : List String
  attachment_block : List String
  attachment_name : List String
  attachment_size : List String

structure AttachmentMeta where
  display_filename : Option String
  display_size : Option String
  attachment_url : String
deriving Repr, DecidableEq

structure PostRecord where
  post_url : String
  author : Option String
  posted_at : String
  content : String
  attachments : List AttachmentMeta
deriving Repr, DecidableEq

structure ThreadRecord where
  thread_url : String
  title : Option String
  posts : List PostRecord
  fetched_at : String
  thread_hash : String
deriving Repr, DecidableEq

/-- Oracle bundle for the crawler: urljoin, the BeautifulSoup document
constructor, the current UTC timestamp and sha256. -/
structure CrawlEnv where
  joinUrl : String → String → String
  soup : String → Node
  now : String
  sha256 : String → String

/-- The attachment-block extraction of _parse_thread (crawl_one.py lines
288-299): read name and size elements, resolve the first anchor href
against the thread URL, and record the metadata only when the resolved
URL is truthy and does not match the attachment heuristic. -/
def parseAttachment (env : CrawlEnv) (threadUrl : String) (sel : SelCfg) (a : Node) :
    Option AttachmentMeta :=
  let name_el := pick_one a sel.attachment_name
  let size_el := pick_one a sel.attachment_size
  let att_url : Option String :=
    match a.firstA with
    | some ln =>
      match ln.attr "href" with
      | some h => if h = "" then none else some (env.joinUrl threadUrl h)
      | none => none
    | none => none
  match att_url with
  | some u =>
    if !(u = "") && !is_attachment_url u then
      some { display_filename := name_el.map Node.textStrip,
             display_size := size_el.map Node.textStrip,
             attachment_url := u }
    else none
  | none => none

/-- The attachment-block extraction of parse_thread in crawler_min.py
(lines 140-152), which records every truthy resolved URL, heuristic
match or not. -/
def parseAttachmentMin (env : CrawlEnv) (threadUrl : String) (sel : SelCfg) (a : Node) :
    Option AttachmentMeta :=
  let name_el := pick_one a sel.attachment_name
  let size_el := pick_one a sel.attachment_size
  let att_url : Option String :=
    match a.firstA with
    | some ln =>
      match ln.attr "href" with
      | some h => if h = "" then none else some (env.joinUrl threadUrl h)
      | none => none
    | none => none
  match att_url with
  | some u =>
    if !(u = "") then
      some { display_filename := name_el.map Node.textStrip,
             display_size := size_el.map Node.textStrip,
             attachment_url := u }
    else none
  | none => none

/-- The per-post-container extraction of _parse_thread, parameterized by
the attachment-block extractor so that the crawl_one and crawler_min
variants share it. -/
def parsePost (env : CrawlEnv) (threadUrl : String) (sel : SelCfg)
    (attExtract : CrawlEnv → String → SelCfg → Node → Option AttachmentMeta)
    (node : Node) : PostRecord :=
  let content := ((pick_one node sel.content).map Node.textJoin).getD ""
  let author := (pick_one node sel.author).map Node.textStrip
  let posted_at :=
    match pick_one node sel.posted_time with
    | some te =>
      match te.attr "datetime" with
      | some d => d
      | none => te.textJoin
    | none => env.now
  let post_url :=
    match pick_one node sel.post_permalink with
    | some pl =>
      match pl.attr "href" with
      | some h => if h = "" then threadUrl else env.joinUrl threadUrl h
      | none => threadUrl
    | none => threadUrl
  let attachments := (pick_many node sel.attachment_block).filterMap (attExtract env threadUrl sel)
  { post_url := post_url, author := author, posted_at := posted_at,
    content := content, attachments := attachments }

/-- Shared body of _parse_thread (crawl_one.py lines 261-315) and
parse_thread (crawler_min.py lines 114-168): fetch, soup, pick the
title, map the post containers, and fingerprint the title plus the
first 5000 characters of the concatenated post bodies. -/
def parseThreadWith (env : CrawlEnv) (fetch : String → Except FetchErr String)
    (attExtract : CrawlEnv → String → SelCfg → Node → Option AttachmentMeta)
    (threadUrl : String) (sel : SelCfg) : Except FetchErr ThreadRecord :=
  match fetch threadUrl with
  | .error e => .error e
  | .ok html =>
    let s := env.soup html
    let title := (pick_one s sel.thread_title).map Node.textJoin
    let posts := (pick_many s sel.post_container).map (parsePost env threadUrl sel attExtract)
    .ok { thread_url := threadUrl, title := title, posts := posts,
          fetched_at := env.now,
          thread_hash := env.sha256 (pyOr title "" ++ pyTake (String.join (posts.map (·.content))) 5000) }

/-- Embedding of _parse_thread (crawl_one.py). -/
def parse_thread (env : CrawlEnv) (fetch : String → Except FetchErr String)
    (threadUrl : String) (sel : SelCfg) : Except FetchErr ThreadRecord :=
  parseThreadWith env fetch parseAttachment threadUrl sel

/-- Embedding of parse_thread (crawler_min.py). -/
def parse_thread_min (env : CrawlEnv) (fetch : String → Except FetchErr String)
    (threadUrl : String) (sel : SelCfg) : Except FetchErr ThreadRecord :=
  parseThreadWith env fetch parseAttachmentMin threadUrl sel

/-! ## Crawl orchestrator (crawl_one.py crawl_forum) -/

/-- State threaded through one crawl_forum run: the visited-thread set,
the records produced so far, and the ordered list of thread URLs passed
to the thread parser (the navigation trace). -/
structure CrawlSt where
  visited : List String
  results : List (String × ThreadRecord)
  parsed : List String
def CrawlSt.init : CrawlSt := ⟨[], [], []⟩

/-- The thread-link candidate loop of crawl_forum (lines 337-344): first
candidate selector with any match wins; a raising selector yields no
matches. -/
def selectFirstNonempty (s : Node) : List String → List Node
  | [] => []
  | css :: rest =>
    match s.selectSafe css with
    | [] => selectFirstNonempty s rest
    | x :: xs => x :: xs

/-- The per-link loop of crawl_forum (lines 346-365): skip untruthy
hrefs, page-local and cross-page duplicates and attachment-heuristic
matches; otherwise mark visited, record the parse attempt and keep the
parsed record, swallowing per-thread parse failures. -/
def crawlLinks (env : CrawlEnv) (fetch : String → Except FetchErr String) (key : String)
    (sel : SelCfg) (pageUrl : String) :
    List Node → List String → CrawlSt → CrawlSt
  | [], _, st => st
  | a :: rest, seenPage, st =>
    let href := a.attr "href"
    if !pyTruthy href then crawlLinks env fetch key sel pageUrl rest seenPage st
    else
      let tu := env.joinUrl pageUrl (href.getD "")
      if seenPage.contains tu || st.visited.contains tu then
        crawlLinks env fetch key sel pageUrl rest seenPage st
      else if is_attachment_url tu then
        crawlLinks env fetch key sel pageUrl rest seenPage st
      else
        let st := { st with visited := tu :: st.visited, parsed := st.parsed ++ [tu] }
        let st :=
          match parse_thread env fetch tu sel with
          | .ok data => { st with results := st.results ++ [(key, data)] }
          | .error _ => st
        crawlLinks env fetch key sel pageUrl rest (tu :: seenPage) st

/-- The pagination loop of crawl_forum (lines 331-370): while the next
URL is truthy and the page bound not exceeded, fetch the list page (a
transport failure propagates out of the whole run), collect and process
thread links, then resolve the next-page selector. -/
def crawlPages (env : CrawlEnv) (fetch : String → Except FetchErr String) (key : String)
    (sel : SelCfg) : Nat → Option String → CrawlSt → CrawlSt × Option FetchErr
  | 0, _, st => (st, none)
  | fuel + 1, nextUrl, st =>
    if !pyTruthy nextUrl then (st, none)
    else
      let u := nextUrl.getD ""
      match fetch u with
      | .error e => (st, some e)
      | .ok html =>
        let s := env.soup html
        let linkNodes := selectFirstNonempty s sel.thread_link
        let st := crawlLinks env fetch key sel u linkNodes [] st
        let next2 :=
          match pick_one s sel.next_page with
          | some el =>
            match el.attr "href" with
            | some h => if h = "" then none else some (env.joinUrl u h)
            | none => none
          | none => none
        crawlPages env fetch key sel fuel next2 st

/-- The seed loop of crawl_forum (line 330): seeds share the
visited-thread set; an escaping fetch failure aborts the remaining
seeds as the Python exception would. -/
def crawlSeeds (env : CrawlEnv) (fetch : String → Except FetchErr String) (key : String)
    (sel : SelCfg) (maxPages : Nat) : List String → CrawlSt → CrawlSt × Option FetchErr
  | [], st => (st, none)
  | u :: rest, st =>
    match crawlPages env fetch key sel maxPages (some u) st with
    | (st2, some e) => (st2, some e)
    | (st2, none) => crawlSeeds env fetch key sel maxPages rest st2

/-- Embedding of crawl_forum (crawl_one.py lines 318-371).  The state
records the navigation trace; the Option FetchErr is the exception that
a list-page fetch failure would propagate (thread-page failures are
swallowed per thread). -/
def crawl_forum (env : CrawlEnv) (fetch : String → Except FetchErr String) (key : String)
    (sel : SelCfg) (maxPages : Nat) : CrawlSt × Option FetchErr :=
  crawlSeeds env fetch key sel maxPages sel.list_urls CrawlSt.init

/-! ## Quarantine download pass (crawl_one.py main, lines 608-639) -/

/-- Manifest entry returned by stream_download for one saved artifact. -/
structure DLMeta where
  url : String
  saved_as : String
  sha256 : String
  size : Nat
  content_type : String
deriving Repr, DecidableEq

/-- The attachment URLs of one record, in post order, truthy only, as
collected by the download pass. -/
def collectAttUrls (r : ThreadRecord) : List String :=
  (r.posts.map (fun p => (p.attachments.map (·.attachment_url)).filter (fun u => !(u = "")))).flatten

/-- The per-thread download loop (lines 629-636): stop before attempting
any URL once the count of successful downloads reaches the per-thread
cap; stream_download is an oracle returning a manifest entry on success.
Returns the manifest entries and the list of URLs actually attempted. -/
def quarLoop (dl : String → Option DLMeta) (cap : Nat) :
    List String → Nat → List DLMeta × List String
  | [], _ => ([], [])
  | u :: rest, count =>
    if count ≥ cap then ([], [])
    else
      match dl u with
      | some m =>
        let r := quarLoop dl cap rest (count + 1)
        (m :: r.1, u :: r.2)
      | none =>
        let r := quarLoop dl cap rest count
        (r.1, u :: r.2)

/-- Per-thread quarantine manifest document. -/
structure QuarManifest where
  thread_url : String
  downloaded : List DLMeta
deriving Repr, DecidableEq

/-- The quarantine pass for one record: collect attachment URLs and run
the capped download loop, producing the manifest and the attempted URL
list. -/
def quarantine_thread (dl : String → Option DLMeta) (cap : Nat) (r : ThreadRecord) :
    QuarManifest × List String :=
  let res := quarLoop dl cap (collectAttUrls r) 0
  ({ thread_url := r.thread_url, downloaded := res.1 }, res.2)

/-! ## Batch escalation runner (run_darkforums_batches.py) -/

inductive Engine where
  | requests
  | playwright
deriving Repr, DecidableEq

/-- The chunk list of main (lines 97-99): starts 1, 1+CHUNK, ... up to
MAX_PAGE, each with min(CHUNK, MAX_PAGE - start + 1) pages. -/
def batchChunks (maxPage chunk : Nat) : List (Nat × Nat) :=
  (List.range' 1 ((maxPage + chunk - 1) / chunk) chunk).map
    (fun start => (start, min chunk (maxPage - start + 1)))

/-- The lightweight-engine retry loop for one chunk (lines 108-115):
attempts in order, stopping at the first success; returns the attempt
trace and whether any attempt succeeded.  The success of one run_crawl
invocation is an oracle of chunk start, engine and attempt number. -/
def reqLoop (ok : Nat → Engine → Nat → Bool) (start : Nat) :
    List Nat → List (Engine × Nat) × Bool
  | [] => ([], false)
  | i :: rest =>
    if ok start .requests i then ([(.requests, i)], true)
    else
      let r := reqLoop ok start rest
      ((.requests, i) :: r.1, r.2)

/-- One chunk of main (lines 102-125): up to three lightweight attempts,
then a single escalation to the browser engine when all three failed. -/
def runChunk (ok : Nat → Engine → Nat → Bool) (start : Nat) :
    List (Engine × Nat) × Bool :=
  let r := reqLoop ok start [1, 2, 3]
  if r.2 then (r.1, true)
  else (r.1 ++ [(.playwright, 1)], ok start .playwright 1)

/-- One iteration of the chunk loop of main: run the chunk, extend the
attempt trace, and append the chunk to the produced list on success
(a doubly-failed chunk is only logged and skipped). -/
def batchStep (ok : Nat → Engine → Nat → Bool)
    (acc : List (Nat × Engine × Nat) × List (Nat × Nat)) (c : Nat × Nat) :
    List (Nat × Engine × Nat) × List (Nat × Nat) :=
  let r := runChunk ok c.1
  (acc.1 ++ r.1.map (fun e => (c.1, e)), if r.2 then acc.2 ++ [c] else acc.2)

/-- Embedding of main (run_darkforums_batches.py lines 94-128): iterate
all chunks regardless of individual failures, collecting the full
attempt trace and the produced list of succeeded chunks. -/
def batch_main (ok : Nat → Engine → Nat → Bool) (maxPage chunk : Nat) :
    List (Nat × Engine × Nat) × List (Nat × Nat) :=
  (batchChunks maxPage chunk).foldl (batchStep ok) ([], [])

/-- The final console line of main, an f-string holding only the count
of produced batches. -/
def batch_final_print (ok : Nat → Engine → Nat → Bool) (maxPage chunk : Nat) : String :=
  "[INFO] finished " ++ toString (batch_main ok maxPage chunk).2.length ++ " batches"

example : sanitize_filename (some "a b/c.txt") "f" = "a_b_c.txt" := by decide

example : canon_thread_url "https://x.st/T-a?page=3" = "https://x.st/T-a" := by decide

example : canon_thread_url "x?page=1&page=2" = "x?page=1" := by decide

example : is_attachment_url "https://a.b/download/x" = true := by decide

example : is_attachment_url "https://a.b/thread-1.zip" = true := by decide

example : is_attachment_url "https://a.b/Thread-files" = false := by decide

example : is_attachment_url "https://a.b/thread.zip?x=1" = true := by decide

example : is_attachment_url "https://a.b/Thread-1" = false := by decide

/-! ## Supporting lemmas -/

theorem subUnsafeAux_safe (l : List Char) : ∀ (b : Bool), ∀ c ∈ subUnsafeAux b l, safeFileChar c = true := by
  induction l with
  | nil => intro b c hc; simp [subUnsafeAux] at hc
  | cons x t ih =>
    intro b c hc
    by_cases hx : safeFileChar x = true
    · simp only [subUnsafeAux, if_pos hx] at hc
      rcases List.mem_cons.mp hc with rfl | hc
      · exact hx
      · exact ih false c hc
    · simp only [subUnsafeAux, if_neg hx] at hc
      cases b with
      | true => exact ih true c hc
      | false =>
        rcases List.mem_cons.mp hc with rfl | hc
        · decide
        · exact ih true c hc

theorem subUnsafeAux_ne_nil (l : List Char) (h : l ≠ []) : subUnsafeAux false l ≠ [] := by
  match l with
  | [] => exact absurd rfl h
  | x :: t =>
    by_cases hx : safeFileChar x = true
    · simp [subUnsafeAux, hx]
    · simp [subUnsafeAux, hx]

theorem pyRpartition_eq_none (c : Char) (l : List Char)
    (h : l.reverse.findIdx? (· = c) = none) : pyRpartition c l = ([], false, l) := by
  simp only [pyRpartition, h]

theorem pyRpartition_eq_some (c : Char) (l : List Char) (i : Nat)
    (h : l.reverse.findIdx? (· = c) = some i) :
    pyRpartition c l = ((l.reverse.drop (i + 1)).reverse, true, (l.reverse.take i).reverse) := by
  simp only [pyRpartition, h]

theorem pyRpartition_fst_subset (c : Char) (l : List Char) :
    (pyRpartition c l).1 ⊆ l := by
  cases h : l.reverse.findIdx? (· = c) with
  | none => rw [pyRpartition_eq_none c l h]; simp
  | some i =>
    rw [pyRpartition_eq_some c l i h]
    intro x hx
    have h1 : x ∈ l.reverse.drop (i + 1) := List.mem_reverse.mp hx
    have h2 : x ∈ l.reverse := List.drop_subset _ _ h1
    exact List.mem_reverse.mp h2

theorem pyRpartition_ext_subset (c : Char) (l : List Char) :
    (pyRpartition c l).2.2 ⊆ l := by
  cases h : l.reverse.findIdx? (· = c) with
  | none => rw [pyRpartition_eq_none c l h]; exact fun x hx => hx
  | some i =>
    rw [pyRpartition_eq_some c l i h]
    intro x hx
    have h1 : x ∈ l.reverse.take i := List.mem_reverse.mp hx
    have h2 : x ∈ l.reverse := List.take_subset _ _ h1
    exact List.mem_reverse.mp h2

theorem pyRpartition_no_sep (c : Char) (l : List Char)
    (h : (pyRpartition c l).2.1 = false) : (pyRpartition c l).1 = [] := by
  cases hf : l.reverse.findIdx? (· = c) with
  | none => rw [pyRpartition_eq_none c l hf]
  | some i => rw [pyRpartition_eq_some c l i hf] at h; simp at h

theorem string_toList_eq_nil_iff (s : String) : s.toList = [] ↔ s = "" := by
  cases s with
  | mk data =>
    constructor
    · intro h
      simp only [String.toList] at h
      rw [h]
    · intro h
      rw [h]
      rfl

theorem pyOr_some (s d : String) : pyOr (some s) d = if s = "" then d else s := rfl

/-- C9: for every input name and every nonempty fallback over the safe
alphabet, sanitize_filename returns a nonempty string whose characters
all lie in the ASCII alphanumeric, dot, underscore, hyphen set. -/
theorem C9_sanitize_filename_safe (name : Option String) (fallback : String)
    (hfb : fallback.toList ≠ [])
    (hsafe : ∀ c ∈ fallback.toList, safeFileChar c = true) :
    (sanitize_filename name fallback).toList ≠ [] ∧
    ∀ c ∈ (sanitize_filename name fallback).toList, safeFileChar c = true := by
  have hn0 : (pyOr (some (pyStrip (pyOr name ""))) fallback).toList ≠ [] := by
    rw [pyOr_some]
    split
    · exact hfb
    · next hne =>
      intro hnil
      exact hne ((string_toList_eq_nil_iff _).mp hnil)
  set n0 : String := pyOr (some (pyStrip (pyOr name ""))) fallback with hn0def
  set n1 : List Char := subUnsafe n0.toList with hn1def
  have hn1ne : n1 ≠ [] := subUnsafeAux_ne_nil _ hn0
  have hn1safe : ∀ c ∈ n1, safeFileChar c = true := fun c hc => subUnsafeAux_safe _ false c hc
  have hres : sanitize_filename name fallback =
      (if n1.length > 120 then
        match pyRpartition '.' n1 with
        | (root, hasDot, ext) =>
          let trunc := root.take 80 ++ (if hasDot then '.' :: ext else [])
          if trunc.isEmpty then String.mk (n1.take 120) else String.mk trunc
      else String.mk n1) := rfl
  rw [hres]
  by_cases hlen : n1.length > 120
  · rw [if_pos hlen]
    rcases hp : pyRpartition '.' n1 with ⟨root, hasDot, ext⟩
    have hrootsub : root ⊆ n1 := by
      have := pyRpartition_fst_subset '.' n1
      rw [hp] at this
      exact this
    have hextsub : ext ⊆ n1 := by
      have := pyRpartition_ext_subset '.' n1
      rw [hp] at this
      exact this
    cases hasDot with
    | true =>
      have hne2 : (root.take 80 ++ '.' :: ext) ≠ [] := by simp
      simp only [if_true]
      rw [if_neg (by simp [List.isEmpty_iff])]
      refine ⟨by simpa [String.toList] using hne2, ?_⟩
      intro c hc
      simp only [String.toList] at hc
      rcases List.mem_append.mp hc with hc | hc
      · exact hn1safe c (hrootsub (List.take_subset _ _ hc))
      · rcases List.mem_cons.mp hc with rfl | hc
        · decide
        · exact hn1safe c (hextsub hc)
    | false =>
      have hroot : root = [] := by
        have := pyRpartition_no_sep '.' n1 (by rw [hp])
        rw [hp] at this
        exact this
      have htake : n1.take 120 ≠ [] := by
        intro h
        rcases List.take_eq_nil_iff.mp h with h | h
        · exact absurd h (by norm_num)
        · exact hn1ne h
      simp only [Bool.false_eq_true, if_false, List.append_nil, hroot, List.take_nil]
      rw [if_pos (by simp [List.isEmpty_iff])]
      refine ⟨by simpa [String.toList] using htake, ?_⟩
      intro c hc
      simp only [String.toList] at hc
      exact hn1safe c (List.take_subset _ _ hc)
  · rw [if_neg hlen]
    exact ⟨by simpa [String.toList] using hn1ne,
           fun c hc => hn1safe c (by simpa [String.toList] using hc)⟩

theorem C9_witness :
    ("file.bin" : String).toList ≠ [] ∧
    (∀ c ∈ ("file.bin" : String).toList, safeFileChar c = true) ∧
    (sanitize_filename (some "a b?.txt") "file.bin").toList ≠ [] ∧
    ∀ c ∈ (sanitize_filename (some "a b?.txt") "file.bin").toList, safeFileChar c = true :=
  ⟨by decide, by decide,
   (C9_sanitize_filename_safe (some "a b?.txt") "file.bin" (by decide) (by decide)).1,
   (C9_sanitize_filename_safe (some "a b?.txt") "file.bin" (by decide) (by decide)).2⟩

/-- C10 counterexample: canon_thread_url is not idempotent; stripping the
trailing pagination parameter of this URL exposes another one. -/
theorem C10_counterexample :
    canon_thread_url (canon_thread_url "x?page=1&page=2") ≠ canon_thread_url "x?page=1&page=2" := by
  decide

/-- C10 amended: canon_thread_url is idempotent exactly on those URLs
whose canonical form does not itself end in a pagination parameter. -/
theorem C10_canon_idempotent_amended (u : String)
    (h : trailingPageParam (canon_thread_url u) = none) :
    canon_thread_url (canon_thread_url u) = canon_thread_url u := by
  show (trailingPageParam (canon_thread_url u)).getD (canon_thread_url u) = canon_thread_url u
  rw [h]
  rfl

theorem C10_witness :
    trailingPageParam (canon_thread_url "https://d.st/Thread-a?page=7") = none ∧
    canon_thread_url (canon_thread_url "https://d.st/Thread-a?page=7") =
      canon_thread_url "https://d.st/Thread-a?page=7" :=
  ⟨by decide, C10_canon_idempotent_amended _ (by decide)⟩

/-! ## C7: quarantine per-thread cap -/

/-- C7: with a per-thread cap of 2 and five collected attachment URLs
whose downloads all succeed, exactly two artifacts are saved, the
manifest lists exactly those two entries, and no third URL is ever
attempted. -/
theorem C7_quarantine_cap (dl : String → Option DLMeta) (r : ThreadRecord)
    (u1 u2 u3 u4 u5 : String)
    (hurls : collectAttUrls r = [u1, u2, u3, u4, u5])
    (hok : ∀ u ∈ [u1, u2, u3, u4, u5], (dl u).isSome = true) :
    ((quarantine_thread dl 2 r).1.downloaded.length = 2 ∧
      (quarantine_thread dl 2 r).1.thread_url = r.thread_url) ∧
    (quarantine_thread dl 2 r).2 = [u1, u2] := by
  obtain ⟨m1, h1⟩ := Option.isSome_iff_exists.mp (hok u1 (by simp))
  obtain ⟨m2, h2⟩ := Option.isSome_iff_exists.mp (hok u2 (by simp))
  unfold quarantine_thread
  rw [hurls]
  simp [quarLoop, h1, h2]

def exDLMeta (u : String) : DLMeta :=
  { url := u, saved_as := u ++ ".quarantine", sha256 := "h", size := 1,
    content_type := "application/octet-stream" }

def exDL : String → Option DLMeta := fun u => some (exDLMeta u)

def exQuarRec : ThreadRecord :=
  { thread_url := "https://f.st/Thread-Q", title := none,
    posts := [{ post_url := "p1", author := none, posted_at := "t", content := "",
                attachments := [⟨none, none, "a1"⟩, ⟨none, none, "a2"⟩, ⟨none, none, "a3"⟩] },
              { post_url := "p2", author := none, posted_at := "t", content := "",
                attachments := [⟨none, none, "a4"⟩, ⟨none, none, "a5"⟩] }],
    fetched_at := "t", thread_hash := "h" }

theorem C7_witness :
    collectAttUrls exQuarRec = ["a1", "a2", "a3", "a4", "a5"] ∧
    (∀ u ∈ ["a1", "a2", "a3", "a4", "a5"], (exDL u).isSome = true) ∧
    (quarantine_thread exDL 2 exQuarRec).1.downloaded.length = 2 ∧
    (quarantine_thread exDL 2 exQuarRec).2 = ["a1", "a2"] :=
  ⟨by decide, by decide,
   (C7_quarantine_cap exDL exQuarRec "a1" "a2" "a3" "a4" "a5" (by decide) (by decide)).1.1,
   (C7_quarantine_cap exDL exQuarRec "a1" "a2" "a3" "a4" "a5" (by decide) (by decide)).2⟩

/-! ## C4: batch escalation runner -/

/-- C4 counterexample: the final console output of the runner reports
only the count of produced batches, so two runs in which different
chunks fail on both strategies print the identical final line while
their produced lists differ: the final output does not record which
chunks failed. -/
def okFailAt (bad : Nat) : Nat → Engine → Nat → Bool :=
  fun start _ _ => !(start = bad)

theorem C4_counterexample :
    batch_final_print (okFailAt 1) 800 200 = batch_final_print (okFailAt 401) 800 200 ∧
    (batch_main (okFailAt 1) 800 200).2 ≠ (batch_main (okFailAt 401) 800 200).2 := by
  decide

/-- C4 amended: with MAX_PAGE 800 and CHUNK 200 the runner generates
exactly the four chunks starting at pages 1, 201, 401 and 601 with 200
pages each; each chunk tries the lightweight engine up to three times
and escalates exactly once to the browser engine when all three fail;
the produced list contains exactly the chunks that succeeded on either
strategy (so a chunk failing on both strategies never stops later
chunks from being attempted and recorded); the final printed line
carries only the count of produced batches. -/
theorem C4_batch_runner_amended (ok : Nat → Engine → Nat → Bool) :
    batchChunks 800 200 = [(1, 200), (201, 200), (401, 200), (601, 200)] ∧
    (∀ start,
      (runChunk ok start).1 =
        (if ok start .requests 1 then [(.requests, 1)]
         else if ok start .requests 2 then [(.requests, 1), (.requests, 2)]
         else if ok start .requests 3 then [(.requests, 1), (.requests, 2), (.requests, 3)]
         else [(.requests, 1), (.requests, 2), (.requests, 3), (.playwright, 1)]) ∧
      (runChunk ok start).2 =
        (ok start .requests 1 || ok start .requests 2 || ok start .requests 3 ||
          ok start .playwright 1)) ∧
    (batch_main ok 800 200).2 =
      (batchChunks 800 200).filter (fun c => (runChunk ok c.1).2) ∧
    batch_final_print ok 800 200 =
      "[INFO] finished " ++ toString ((batchChunks 800 200).filter
        (fun c => (runChunk ok c.1).2)).length ++ " batches" := by
  have aux : ∀ (chunks : List (Nat × Nat)) (t1 : List (Nat × Engine × Nat)) (t2 : List (Nat × Nat)),
      (chunks.foldl (batchStep ok) (t1, t2)).2 = t2 ++ chunks.filter (fun c => (runChunk ok c.1).2) := by
    intro chunks
    induction chunks with
    | nil => intro t1 t2; simp
    | cons c rest ih =>
      intro t1 t2
      simp only [List.foldl_cons, List.filter_cons, batchStep]
      by_cases h : (runChunk ok c.1).2 = true
      · simp [h, ih]
      · simp [h, ih]
  have hprod : (batch_main ok 800 200).2 =
      (batchChunks 800 200).filter (fun c => (runChunk ok c.1).2) := by
    have := aux (batchChunks 800 200) [] []
    simpa [batch_main] using this
  refine ⟨by decide, fun start => ?_, hprod, ?_⟩
  · constructor
    · by_cases h1 : ok start .requests 1 <;> by_cases h2 : ok start .requests 2 <;>
        by_cases h3 : ok start .requests 3 <;>
        simp [runChunk, reqLoop, h1, h2, h3]
    · by_cases h1 : ok start .requests 1 <;> by_cases h2 : ok start .requests 2 <;>
        by_cases h3 : ok start .requests 3 <;>
        simp [runChunk, reqLoop, h1, h2, h3]
  · rw [batch_final_print, hprod]

/-! ## C5: triage scoring and classification -/

def exC5Posts : List PostObj :=
  [{ post_url := some "https://darkforums.st/Thread-S#p1", author := some "alice",
     posted_at := some "2025-01-01T00:00:00+00:00",
     content := some (String.mk (List.replicate 120 'x')) },
   { post_url := some "p2", author := none, posted_at := none, content := some "second entry" },
   { post_url := some "p3", author := none, posted_at := none, content := some "third entry" },
   { post_url := some "p4", author := none, posted_at := none, content := some "fourth entry" }]

/-- A concrete relaxed-pass record with tags db_leak, one telegram
handle, a 120-character first post and four posts. -/
def exC5Rec : TriageRec :=
  { source := "darkforums", thread_url := "https://darkforums.st/Thread-S",
    canon_url := "https://darkforums.st/Thread-S", title := "Sample thread",
    thread_hash := "h5", fetched_at := none, post_count := 4, posts := exC5Posts,
    tags := ["db_leak"], contacts_telegram := ["@seller_one"], prices := [] }

set_option maxRecDepth 10000 in
/-- C5: triage_score is the sum of its six signals starting from zero;
triage_split classifies by the keep and drop thresholds with posts
cleared on drop; the concrete example record scores 5 and is kept at
the default thresholds. -/
theorem C5_triage_scoring :
    (∀ r : TriageRec,
      triage_score r =
        (if hvTags.any (fun t => r.tags.contains t) then 2 else 0)
        + (if !r.contacts_telegram.isEmpty then 1 else 0)
        + (if (match r.posts with | [] => 0 | p :: _ => (pyOr p.content "").length) ≥ 80 then 1 else 0)
        + (if r.post_count ≥ 3 then 1 else 0)
        - (if CF_TITLES.contains r.title then 2 else 0)
        - (if actionUrlSearch r.thread_url then 1 else 0)) ∧
    (∀ (r : TriageRec) (keep_th drop_th : Int),
      triage_split [r] keep_th drop_th =
        if triage_score r ≥ keep_th then ([r], [], [])
        else if triage_score r < drop_th then ([], [], [{ r with posts := [] }])
        else ([], [r], [])) ∧
    triage_score exC5Rec = 5 ∧
    triage_split [exC5Rec] 2 0 = ([exC5Rec], [], []) := by
  refine ⟨fun r => ?_, fun r kt dt => ?_, by decide, by decide⟩
  · simp only [triage_score]
    split_ifs <;> omega
  · simp only [triage_split, List.foldl_cons, List.foldl_nil]
    split_ifs <;> simp

/-! ## C3: challenge-title penalty and the relaxed zero-post scenario -/

def exC3Env : PyEnv :=
  { now := "2025-01-01T00:00:00+00:00", isoOk := fun _ => true, hash_text := fun s => "H" ++ s }

/-- A crawled zero-post record whose title is the known challenge title. -/
def exC3Raw : RawRecord :=
  { source := some "darkforums", thread_url := some "https://darkforums.st/Thread-Test-Topic",
    title := some "Just a moment...", posts := [], thread_hash := some "th1",
    fetched_at := some "2025-01-01T00:00:00+00:00" }

set_option maxRecDepth 20000 in
/-- C3 counterexample: the zero-post thread crawled with the known
challenge title, run through the relaxed pass with keep_cf and
allow_empty, survives filtering with its title already replaced by the
URL slug; triage therefore sees a non-challenge title, scores 0 rather
than -2, and classifies the record review rather than drop. -/
theorem C3_counterexample :
    ((filter_records exC3Env [InLine.record exC3Raw] RELAXED_EXCLUDE true 5 true).1.map
        (fun r => (r.title, triage_score r)) = [("Thread Test Topic", 0)]) ∧
    triage_split (filter_records exC3Env [InLine.record exC3Raw] RELAXED_EXCLUDE true 5 true).1 2 0 =
      ([], (filter_records exC3Env [InLine.record exC3Raw] RELAXED_EXCLUDE true 5 true).1, []) := by
  decide

set_option maxRecDepth 20000 in
/-- C3 amended: the -2 penalty of triage_score fires exactly on the
post-normalization title: it is absent whenever the stored title is not
a known challenge title and present (as exactly -2) whenever it is;
normalize_title replaces a crawled challenge title by the URL slug; and
the concrete relaxed zero-post scenario survives filtering with the slug
title, scores 0 and is classified review (metadata kept, posts already
empty). -/
theorem C3_cf_penalty_amended :
    (∀ r : TriageRec, CF_TITLES.contains r.title = false →
      triage_score r =
        (if hvTags.any (fun t => r.tags.contains t) then 2 else 0)
        + (if !r.contacts_telegram.isEmpty then 1 else 0)
        + (if (match r.posts with | [] => 0 | p :: _ => (pyOr p.content "").length) ≥ 80 then 1 else 0)
        + (if r.post_count ≥ 3 then 1 else 0)
        - (if actionUrlSearch r.thread_url then 1 else 0)) ∧
    (∀ r : TriageRec, CF_TITLES.contains r.title = true →
      triage_score r =
        (if hvTags.any (fun t => r.tags.contains t) then 2 else 0)
        + (if !r.contacts_telegram.isEmpty then 1 else 0)
        + (if (match r.posts with | [] => 0 | p :: _ => (pyOr p.content "").length) ≥ 80 then 1 else 0)
        + (if r.post_count ≥ 3 then 1 else 0)
        - 2
        - (if actionUrlSearch r.thread_url then 1 else 0)) ∧
    (∀ t url, t ∈ CF_TITLES →
      normalize_title (some t) url = (if slug_of url = "" then url else slug_of url)) ∧
    ((filter_records exC3Env [InLine.record exC3Raw] RELAXED_EXCLUDE true 5 true).1.map
        (fun r => (r.title, r.post_count, r.posts, triage_score r)) =
      [("Thread Test Topic", 0, [], 0)]) := by
  refine ⟨fun r h => ?_, fun r h => ?_, fun t url ht => ?_, by decide⟩
  · simp only [triage_score, h, Bool.false_eq_true, if_false]
    split_ifs <;> omega
  · simp only [triage_score, h, if_true]
    split_ifs <;> omega
  · have hc : CF_TITLES.contains t = true := List.elem_eq_true_of_mem ht
    simp only [normalize_title, hc, Bool.not_true, Bool.and_false, Bool.false_eq_true, if_false]

/-- A triage record whose stored title is itself a challenge title. -/
def exC3CFRec : TriageRec :=
  { source := "darkforums", thread_url := "u", canon_url := "u", title := "Just a moment...",
    thread_hash := "h", fetched_at := none, post_count := 0, posts := [], tags := [],
    contacts_telegram := [], prices := [] }

theorem C3_witness :
    (CF_TITLES.contains exC3CFRec.title = true ∧ triage_score exC3CFRec = -2) ∧
    ("Just a moment..." ∈ CF_TITLES ∧
      normalize_title (some "Just a moment...") "https://darkforums.st/Thread-Test-Topic" =
        "Thread Test Topic") :=
  ⟨⟨by decide, (C3_cf_penalty_amended.2.1 exC3CFRec (by decide)).trans (by decide)⟩,
   ⟨by decide,
    (C3_cf_penalty_amended.2.2.1 "Just a moment..." "https://darkforums.st/Thread-Test-Topic"
      (by decide)).trans (by decide)⟩⟩

/-! ## C8: canonicalization and thread-level dedup -/

/-- The thread dedup key of filter_records: the existing thread_hash
when truthy, otherwise the hash of the canonical URL. -/
def threadKeyOf (env : PyEnv) (r : RawRecord) : String :=
  pyOr r.thread_hash (env.hash_text (canon_thread_url (pyOr r.thread_url "")))

/-- Behavior of one record line under processLine: the seen-thread set
only grows, and either no record is emitted, or exactly one is emitted,
in which case the thread key was new and is now seen. -/
theorem processLine_record_spec (env : PyEnv) (excl : String → Bool) (keepCf : Bool)
    (minChars : Nat) (allowEmpty : Bool) (st : FiltState) (obj : RawRecord) :
    st.seen_threads ⊆ (processLine env excl keepCf minChars allowEmpty st (.record obj)).seen_threads ∧
    ((processLine env excl keepCf minChars allowEmpty st (.record obj)).out_records = st.out_records ∨
      (threadKeyOf env obj ∉ st.seen_threads ∧
       threadKeyOf env obj ∈ (processLine env excl keepCf minChars allowEmpty st (.record obj)).seen_threads ∧
       ∃ r', (processLine env excl keepCf minChars allowEmpty st (.record obj)).out_records =
          st.out_records ++ [r'])) := by
  simp only [processLine, threadKeyOf]
  split
  · exact ⟨fun x h => h, Or.inl rfl⟩
  · split
    · exact ⟨fun x h => h, Or.inl rfl⟩
    · split
      · exact ⟨fun x h => h, Or.inl rfl⟩
      · split
        · exact ⟨fun x h => h, Or.inl rfl⟩
        · next hnc =>
          refine ⟨fun x hx => List.mem_cons_of_mem _ hx,
            Or.inr ⟨fun hmem => hnc (List.elem_eq_true_of_mem hmem),
              List.mem_cons_self _ _, ⟨_, rfl⟩⟩⟩

/-- C8: two raw records with the same title, the same posts and the
same thread_hash field whose thread URLs canonicalize identically
(as URLs differing only by a trailing pagination parameter do) are
collapsed by one filter_records run, under any exclusion predicate and
either pass configuration: at most one survives. -/
theorem C8_pagination_dedup (env : PyEnv) (excl : String → Bool) (keepCf : Bool)
    (minChars : Nat) (allowEmpty : Bool) (r1 r2 : RawRecord)
    (htitle : r1.title = r2.title) (hposts : r1.posts = r2.posts)
    (hhash : r1.thread_hash = r2.thread_hash)
    (hcanon : canon_thread_url (pyOr r1.thread_url "") = canon_thread_url (pyOr r2.thread_url "")) :
    (filter_records env [InLine.record r1, InLine.record r2] excl keepCf minChars allowEmpty).1.length ≤ 1 := by
  have hkey : threadKeyOf env r1 = threadKeyOf env r2 := by
    simp only [threadKeyOf, hhash, hcanon]
  obtain ⟨hmono1, hout1⟩ :=
    processLine_record_spec env excl keepCf minChars allowEmpty FiltState.init r1
  obtain ⟨hmono2, hout2⟩ :=
    processLine_record_spec env excl keepCf minChars allowEmpty
      (processLine env excl keepCf minChars allowEmpty FiltState.init (.record r1)) r2
  simp only [filter_records, List.foldl_cons, List.foldl_nil]
  rcases hout1 with h1 | ⟨hnm1, hin1, r1', he1⟩
  · rcases hout2 with h2 | ⟨hnm2, hin2, r2', he2⟩
    · rw [h2, h1]
      decide
    · rw [he2, h1]
      simp [FiltState.init]
  · rcases hout2 with h2 | ⟨hnm2, hin2, r2', he2⟩
    · rw [h2, he1]
      simp [FiltState.init]
    · exact absurd (hkey ▸ hin1) hnm2

def exC8Env : PyEnv :=
  { now := "t", isoOk := fun _ => true, hash_text := fun s => "H-" ++ s }

def exC8R1 : RawRecord :=
  { source := some "darkforums", thread_url := some "https://darkforums.st/Thread-A",
    title := some "Hello world",
    posts := [{ post_url := some "pA", author := none, posted_at := none,
                content := some "hello there friend" }],
    thread_hash := some "TH", fetched_at := none }

def exC8R2 : RawRecord :=
  { exC8R1 with thread_url := some "https://darkforums.st/Thread-A?page=2" }

theorem C8_witness :
    canon_thread_url (pyOr exC8R1.thread_url "") = canon_thread_url (pyOr exC8R2.thread_url "") ∧
    (filter_records exC8Env [InLine.record exC8R1, InLine.record exC8R2]
      RELAXED_EXCLUDE true 5 true).1.length ≤ 1 :=
  ⟨by decide,
   C8_pagination_dedup exC8Env RELAXED_EXCLUDE true 5 true exC8R1 exC8R2
     (by decide) (by decide) (by decide) (by decide)⟩

/-! ## C1: attachment heuristic blocks fetch and crawl navigation -/

theorem crawlLinks_parsed_safe (env : CrawlEnv) (fetch : String → Except FetchErr String)
    (key : String) (sel : SelCfg) (pageUrl : String) (nodes : List Node) :
    ∀ (seenPage : List String) (st : CrawlSt),
      (∀ u ∈ st.parsed, is_attachment_url u = false) →
      ∀ u ∈ (crawlLinks env fetch key sel pageUrl nodes seenPage st).parsed,
        is_attachment_url u = false := by
  induction nodes with
  | nil =>
    intro seenPage st hinv u hu
    exact hinv u hu
  | cons a rest ih =>
    intro seenPage st hinv u hu
    simp only [crawlLinks] at hu
    split at hu
    · exact ih seenPage st hinv u hu
    · split at hu
      · exact ih seenPage st hinv u hu
      · split at hu
        · exact ih seenPage st hinv u hu
        · next hatt =>
          have hatt' : is_attachment_url (env.joinUrl pageUrl ((a.attr "href").getD "")) = false := by
            simpa using hatt
          have hstep : ∀ v ∈ st.parsed ++ [env.joinUrl pageUrl ((a.attr "href").getD "")],
              is_attachment_url v = false := by
            intro v hv
            rcases List.mem_append.mp hv with hv | hv
            · exact hinv v hv
            · rw [List.mem_singleton] at hv
              subst hv
              exact hatt'
          split at hu
          · exact ih _ _ hstep u hu
          · exact ih _ _ hstep u hu

theorem crawlPages_parsed_safe (env : CrawlEnv) (fetch : String → Except FetchErr String)
    (key : String) (sel : SelCfg) :
    ∀ (fuel : Nat) (nextUrl : Option String) (st : CrawlSt),
      (∀ u ∈ st.parsed, is_attachment_url u = false) →
      ∀ u ∈ (crawlPages env fetch key sel fuel nextUrl st).1.parsed,
        is_attachment_url u = false := by
  intro fuel
  induction fuel with
  | zero =>
    intro nextUrl st hinv u hu
    exact hinv u hu
  | succ n ih =>
    intro nextUrl st hinv u hu
    simp only [crawlPages] at hu
    split at hu
    · exact hinv u hu
    · split at hu
      · exact hinv u hu
      · exact ih _ _ (crawlLinks_parsed_safe env fetch key sel _ _ _ _ hinv) u hu

theorem crawlSeeds_parsed_safe (env : CrawlEnv) (fetch : String → Except FetchErr String)
    (key : String) (sel : SelCfg) (maxPages : Nat) :
    ∀ (urls : List String) (st : CrawlSt),
      (∀ u ∈ st.parsed, is_attachment_url u = false) →
      ∀ u ∈ (crawlSeeds env fetch key sel maxPages urls st).1.parsed,
        is_attachment_url u = false := by
  intro urls
  induction urls with
  | nil =>
    intro st hinv u hu
    exact hinv u hu
  | cons v rest ih =>
    intro st hinv u hu
    simp only [crawlSeeds] at hu
    split at hu
    · next st2 e heq =>
      have hsafe := crawlPages_parsed_safe env fetch key sel maxPages (some v) st hinv
      rw [heq] at hsafe
      exact hsafe u hu
    · next st2 heq =>
      have hsafe := crawlPages_parsed_safe env fetch key sel maxPages (some v) st hinv
      rw [heq] at hsafe
      exact ih st2 hsafe u hu

/-- C1: a URL matching the attachment heuristic is rejected by both
fetch strategies with a blocked-URL error before any network request or
page navigation (the request trace is empty), and the crawl
orchestrator never passes an attachment-heuristic URL to the thread
parser. -/
theorem C1_attachment_guard :
    (∀ (net : String → HttpResponse) (joinUrl : String → String → String)
       (maxBytes : Nat) (u : String),
      is_attachment_url u = true →
      safe_get_html net joinUrl maxBytes u = ([], .error (.blockedUrl u))) ∧
    (∀ (render : String → String) (maxBytes : Nat) (u : String),
      is_attachment_url u = true →
      playwright_fetch_html render maxBytes u = ([], .error (.blockedUrl u))) ∧
    (∀ (env : CrawlEnv) (fetch : String → Except FetchErr String) (key : String)
       (sel : SelCfg) (maxPages : Nat) (u : String),
      u ∈ (crawl_forum env fetch key sel maxPages).1.parsed →
      is_attachment_url u = false) := by
  refine ⟨fun net joinUrl maxBytes u h => ?_, fun render maxBytes u h => ?_,
    fun env fetch key sel maxPages u hu => ?_⟩
  · simp [safe_get_html, h]
  · simp [playwright_fetch_html, h]
  · exact crawlSeeds_parsed_safe env fetch key sel maxPages sel.list_urls CrawlSt.init
      (by intro v hv; simp [CrawlSt.init] at hv) u hu

def exNet : String → HttpResponse :=
  fun _ => { status := 200, location := none, contentDisposition := none,
             contentType := some "text/html", contentLength := none, body := "<p>ok</p>" }

def exJoin : String → String → String := fun _ h => h

def exLinkA : Node := Node.mk "" "" [("href", "https://x.st/Thread-T1")] [] none

def exListDoc : Node := Node.mk "" "" [] [("a.t", some [exLinkA])] none

def exCrawlEnvC1 : CrawlEnv :=
  { joinUrl := fun _ h => h, soup := fun _ => exListDoc, now := "T", sha256 := fun s => s }

def exFetchOk : String → Except FetchErr String := fun _ => .ok "<html>"

def exSelC1 : SelCfg :=
  { list_urls := ["https://x.st/Forum-F"], thread_link := ["a.t"], next_page := [],
    thread_title := [], post_container := [], content := [], author := [], posted_time := [],
    post_permalink := [], attachment_block := [], attachment_name := [], attachment_size := [] }

theorem C1_witness :
    is_attachment_url "https://x.st/files/a.zip" = true ∧
    safe_get_html exNet exJoin 3000000 "https://x.st/files/a.zip" =
      ([], .error (.blockedUrl "https://x.st/files/a.zip")) ∧
    playwright_fetch_html (fun _ => "<html>") 3000000 "https://x.st/files/a.zip" =
      ([], .error (.blockedUrl "https://x.st/files/a.zip")) ∧
    ("https://x.st/Thread-T1" ∈ (crawl_forum exCrawlEnvC1 exFetchOk "f" exSelC1 1).1.parsed ∧
      is_attachment_url "https://x.st/Thread-T1" = false) :=
  ⟨by decide,
   C1_attachment_guard.1 exNet exJoin 3000000 "https://x.st/files/a.zip" (by decide),
   C1_attachment_guard.2.1 (fun _ => "<html>") 3000000 "https://x.st/files/a.zip" (by decide),
   ⟨by decide,
    C1_attachment_guard.2.2 exCrawlEnvC1 exFetchOk "f" exSelC1 1 "https://x.st/Thread-T1"
      (by decide)⟩⟩

/-! ## C2: attachment blocks whose URL matches the heuristic -/

def attLinkNode : Node := Node.mk "" "" [("href", "https://h.st/download/a.zip")] [] none

def attBlockNode : Node := Node.mk "" "" [] [] (some attLinkNode)

def titleNodeC2 : Node := Node.mk "Title" "Title" [] [] none

def postNodeC2 : Node := Node.mk "" "" [] [("div.attach", some [attBlockNode])] none

def docNodeC2 : Node :=
  Node.mk "" "" [] [("div.post", some [postNodeC2]), ("h1", some [titleNodeC2])] none

def exCrawlEnvC2 : CrawlEnv :=
  { joinUrl := fun _ h => h, soup := fun _ => docNodeC2, now := "T0",
    sha256 := fun s => "sha-" ++ s }

def exSelC2 : SelCfg :=
  { list_urls := [], thread_link := [], next_page := [], thread_title := ["h1"],
    post_container := ["div.post"], content := ["div.c"], author := ["span.a"],
    posted_time := ["time"], post_permalink := ["a.p"], attachment_block := ["div.attach"],
    attachment_name := ["span.fn"], attachment_size := ["span.sz"] }

/-- C2 counterexample: a post with one attachment block whose resolved
link URL matches the attachment heuristic; _parse_thread returns the
post with an empty attachments list, so the heuristic-matching URL is
not recorded as attachment metadata. -/
theorem C2_counterexample :
    is_attachment_url "https://h.st/download/a.zip" = true ∧
    parse_thread exCrawlEnvC2 exFetchOk "https://h.st/Thread-B" exSelC2 =
      .ok { thread_url := "https://h.st/Thread-B", title := some "Title",
            posts := [{ post_url := "https://h.st/Thread-B", author := none, posted_at := "T0",
                        content := "", attachments := [] }],
            fetched_at := "T0", thread_hash := "sha-Title" } :=
  ⟨by decide, rfl⟩

theorem parseAttachment_heuristic_free (env : CrawlEnv) (threadUrl : String) (sel : SelCfg)
    (a : Node) (m : AttachmentMeta) (h : parseAttachment env threadUrl sel a = some m) :
    is_attachment_url m.attachment_url = false := by
  simp only [parseAttachment] at h
  split at h
  · next u heq =>
    split at h
    · next hcond =>
      simp only [Bool.and_eq_true] at hcond
      have hm : m.attachment_url = u := by
        cases h
        rfl
      rw [hm]
      simpa using hcond.2
    · exact absurd h (by simp)
  · exact absurd h (by simp)

theorem parseThreadWith_error_eq (env : CrawlEnv) (fetch : String → Except FetchErr String)
    (attE : CrawlEnv → String → SelCfg → Node → Option AttachmentMeta)
    (threadUrl : String) (sel : SelCfg) (e : FetchErr)
    (hf : fetch threadUrl = .error e) :
    parseThreadWith env fetch attE threadUrl sel = .error e := by
  unfold parseThreadWith
  rw [hf]

theorem parseThreadWith_ok_eq (env : CrawlEnv) (fetch : String → Except FetchErr String)
    (attE : CrawlEnv → String → SelCfg → Node → Option AttachmentMeta)
    (threadUrl : String) (sel : SelCfg) (html : String)
    (hf : fetch threadUrl = .ok html) :
    parseThreadWith env fetch attE threadUrl sel = .ok
      { thread_url := threadUrl,
        title := (pick_one (env.soup html) sel.thread_title).map Node.textJoin,
        posts := (pick_many (env.soup html) sel.post_container).map
          (parsePost env threadUrl sel attE),
        fetched_at := env.now,
        thread_hash := env.sha256
          (pyOr ((pick_one (env.soup html) sel.thread_title).map Node.textJoin) ""
            ++ pyTake (String.join (((pick_many (env.soup html) sel.post_container).map
                (parsePost env threadUrl sel attE)).map (fun x => x.content))) 5000) } := by
  unfold parseThreadWith
  rw [hf]

/-- C2 amended: _parse_thread excludes every attachment block whose
resolved URL matches the attachment heuristic from the recorded
attachment metadata (every AttachmentMeta it emits carries a
non-matching URL, and it navigates nowhere beyond the thread page);
the minimal crawler's parse_thread, in contrast, records the display
metadata and resolved URL of every block with a truthy href,
heuristic match or not. -/
theorem C2_attachment_extraction_amended :
    (∀ (env : CrawlEnv) (fetch : String → Except FetchErr String) (threadUrl : String)
       (sel : SelCfg) (tr : ThreadRecord),
      parse_thread env fetch threadUrl sel = .ok tr →
      ∀ p ∈ tr.posts, ∀ a ∈ p.attachments, is_attachment_url a.attachment_url = false) ∧
    (∀ (env : CrawlEnv) (threadUrl : String) (sel : SelCfg) (a ln : Node) (h : String),
      a.firstA = some ln → ln.attr "href" = some h → h ≠ "" → env.joinUrl threadUrl h ≠ "" →
      parseAttachmentMin env threadUrl sel a =
        some { display_filename := (pick_one a sel.attachment_name).map Node.textStrip,
               display_size := (pick_one a sel.attachment_size).map Node.textStrip,
               attachment_url := env.joinUrl threadUrl h }) := by
  constructor
  · intro env fetch threadUrl sel tr htr p hp a ha
    unfold parse_thread at htr
    cases hf : fetch threadUrl with
    | error e =>
      rw [parseThreadWith_error_eq env fetch parseAttachment threadUrl sel e hf] at htr
      simp at htr
    | ok html =>
      rw [parseThreadWith_ok_eq env fetch parseAttachment threadUrl sel html hf,
        Except.ok.injEq] at htr
      subst htr
      have hp' : p ∈ (pick_many (env.soup html) sel.post_container).map
          (parsePost env threadUrl sel parseAttachment) := hp
      obtain ⟨node, _, hnode⟩ := List.mem_map.mp hp'
      have ha' : a ∈ (pick_many node sel.attachment_block).filterMap
          (parseAttachment env threadUrl sel) := by
        rw [← hnode] at ha
        exact ha
      obtain ⟨x, _, hx⟩ := List.mem_filterMap.mp ha'
      exact parseAttachment_heuristic_free env threadUrl sel x a hx
  · intro env threadUrl sel a ln h hfa hhref hne hjoin
    simp only [parseAttachmentMin, hfa, hhref]
    rw [if_neg hne]
    have : (!(env.joinUrl threadUrl h = "")) = true := by
      simpa using hjoin
    simp [this]

def benLinkNode : Node := Node.mk "" "" [("href", "https://h.st/keep/a.txt")] [] none

def benBlockNode : Node := Node.mk "" "" [] [] (some benLinkNode)

def postNodeC2w : Node := Node.mk "" "" [] [("div.attach", some [benBlockNode])] none

def docNodeC2w : Node :=
  Node.mk "" "" [] [("div.post", some [postNodeC2w]), ("h1", some [titleNodeC2])] none

def exCrawlEnvC2w : CrawlEnv :=
  { joinUrl := fun _ h => h, soup := fun _ => docNodeC2w, now := "T0",
    sha256 := fun s => "sha-" ++ s }

def exC2wPost : PostRecord :=
  { post_url := "https://h.st/Thread-C", author := none, posted_at := "T0", content := "",
    attachments := [⟨none, none, "https://h.st/keep/a.txt"⟩] }

def exC2wRec : ThreadRecord :=
  { thread_url := "https://h.st/Thread-C", title := some "Title", posts := [exC2wPost],
    fetched_at := "T0", thread_hash := "sha-Title" }

theorem C2_witness :
    parse_thread exCrawlEnvC2w exFetchOk "https://h.st/Thread-C" exSelC2 = .ok exC2wRec ∧
    is_attachment_url "https://h.st/keep/a.txt" = false ∧
    parseAttachmentMin exCrawlEnvC2 "https://h.st/Thread-B" exSelC2 attBlockNode =
      some ⟨none, none, "https://h.st/download/a.zip"⟩ :=
  ⟨rfl,
   C2_attachment_extraction_amended.1 exCrawlEnvC2w exFetchOk "https://h.st/Thread-C" exSelC2
     exC2wRec rfl exC2wPost (by decide) ⟨none, none, "https://h.st/keep/a.txt"⟩
     (by decide),
   (C2_attachment_extraction_amended.2 exCrawlEnvC2 "https://h.st/Thread-B" exSelC2
     attBlockNode attLinkNode "https://h.st/download/a.zip" rfl rfl (by decide)
     (by decide)).trans (by decide)⟩

/-! ## C6: manual redirect loop of the lightweight strategy -/

/-- A response the loop treats as a redirect: 3xx status with a
Location header present. -/
def isRedirectResp (r : HttpResponse) : Bool :=
  300 ≤ r.status && r.status < 400 && r.location.isSome

/-- The joined target of one redirect hop. -/
def nextHop (net : String → HttpResponse) (joinUrl : String → String → String)
    (c : String) : String :=
  joinUrl c ((net c).location.getD "")

/-- The URL reached after i redirect hops from u. -/
def hopChain (net : String → HttpResponse) (joinUrl : String → String → String)
    (u : String) : Nat → String
  | 0 => u
  | n + 1 => nextHop net joinUrl (hopChain net joinUrl u n)

/-- A response that passes all four content guards of the loop. -/
def goodResp (r : HttpResponse) (maxBytes : Nat) : Bool :=
  !(subIn "attachment" (pyLower (pyOr r.contentDisposition ""))) &&
  HTML_CT_ALLOWED.contains (ctParse r.contentType) &&
  !(clTooLarge r.contentLength maxBytes) &&
  !(r.body.length > maxBytes)

theorem hopChain_shift (net : String → HttpResponse) (joinUrl : String → String → String)
    (u : String) : ∀ i, hopChain net joinUrl (nextHop net joinUrl u) i =
      hopChain net joinUrl u (i + 1) := by
  intro i
  induction i with
  | zero => rfl
  | succ n ih => simp only [hopChain, ih]

theorem safeGetLoop_redirect_step (net : String → HttpResponse)
    (joinUrl : String → String → String) (maxBytes n : Nat) (current : String)
    (trace : List String)
    (hr : isRedirectResp (net current) = true)
    (hb : is_attachment_url (nextHop net joinUrl current) = false) :
    safeGetLoop net joinUrl maxBytes (n + 1) current trace =
      safeGetLoop net joinUrl maxBytes n (nextHop net joinUrl current) (current :: trace) := by
  simp only [isRedirectResp, Bool.and_eq_true] at hr
  have hcond : (300 ≤ (net current).status && (net current).status < 400) = true := by
    rw [Bool.and_eq_true]
    exact hr.1
  obtain ⟨loc, hlocEq⟩ := Option.isSome_iff_exists.mp hr.2
  have hnext : nextHop net joinUrl current = joinUrl current loc := by
    simp [nextHop, hlocEq]
  simp only [safeGetLoop, hcond, if_true, hlocEq, ← hnext, hb, Bool.false_eq_true, if_false]

theorem safeGetLoop_blocked_step (net : String → HttpResponse)
    (joinUrl : String → String → String) (maxBytes n : Nat) (current : String)
    (trace : List String)
    (hr : isRedirectResp (net current) = true)
    (hb : is_attachment_url (nextHop net joinUrl current) = true) :
    safeGetLoop net joinUrl maxBytes (n + 1) current trace =
      ((current :: trace).reverse, .error (.redirectedBlocked (nextHop net joinUrl current))) := by
  simp only [isRedirectResp, Bool.and_eq_true] at hr
  have hcond : (300 ≤ (net current).status && (net current).status < 400) = true := by
    rw [Bool.and_eq_true]
    exact hr.1
  obtain ⟨loc, hlocEq⟩ := Option.isSome_iff_exists.mp hr.2
  have hnext : nextHop net joinUrl current = joinUrl current loc := by
    simp [nextHop, hlocEq]
  simp only [safeGetLoop, hcond, if_true, hlocEq, ← hnext, hb, if_true]

theorem safeGetLoop_good_step (net : String → HttpResponse)
    (joinUrl : String → String → String) (maxBytes n : Nat) (current : String)
    (trace : List String)
    (hnr : isRedirectResp (net current) = false)
    (hg : goodResp (net current) maxBytes = true) :
    safeGetLoop net joinUrl maxBytes (n + 1) current trace =
      ((current :: trace).reverse, .ok (net current).body) := by
  have hscrut : (if 300 ≤ (net current).status && (net current).status < 400 then
      (net current).location else none) = none := by
    cases hl : (net current).location with
    | none => simp [hl]
    | some loc =>
      have hcond : (300 ≤ (net current).status && (net current).status < 400) = false := by
        simp only [isRedirectResp, hl, Option.isSome_some, Bool.and_true] at hnr
        exact hnr
      simp [hcond]
  simp only [goodResp, Bool.and_eq_true] at hg
  have h1 : subIn "attachment" (pyLower (pyOr (net current).contentDisposition "")) = false := by
    simpa using hg.1.1.1
  have h2 : HTML_CT_ALLOWED.contains (ctParse (net current).contentType) = true := hg.1.1.2
  have h3 : clTooLarge (net current).contentLength maxBytes = false := by
    simpa using hg.1.2
  have h4 : ¬((net current).body.length > maxBytes) := by
    have := hg.2
    simpa using this
  simp only [safeGetLoop, hscrut, h1, Bool.false_eq_true, if_false, h2, Bool.not_true, h3,
    if_neg h4]

theorem hopChain_map_shift (net : String → HttpResponse)
    (joinUrl : String → String → String) (current : String) (n : Nat) :
    List.map (hopChain net joinUrl (nextHop net joinUrl current)) (List.range n) =
      List.map (fun i => hopChain net joinUrl current (i + 1)) (List.range n) := by
  apply List.map_congr_left
  intro i _
  rw [hopChain_shift]

theorem safeGetLoop_all_redirect (net : String → HttpResponse)
    (joinUrl : String → String → String) (maxBytes : Nat) :
    ∀ (n : Nat) (current : String) (trace : List String),
      (∀ i < n, isRedirectResp (net (hopChain net joinUrl current i)) = true ∧
        is_attachment_url (hopChain net joinUrl current (i + 1)) = false) →
      safeGetLoop net joinUrl maxBytes n current trace =
        (trace.reverse ++ (List.range n).map (hopChain net joinUrl current),
          .error .tooManyRedirects) := by
  intro n
  induction n with
  | zero =>
    intro current trace _
    simp [safeGetLoop]
  | succ m ih =>
    intro current trace h
    have h0 := h 0 (Nat.succ_pos m)
    rw [safeGetLoop_redirect_step net joinUrl maxBytes m current trace h0.1 h0.2]
    rw [ih (nextHop net joinUrl current) (current :: trace) ?_]
    · rw [hopChain_map_shift net joinUrl current m]
      simp [List.reverse_cons, List.range_succ_eq_map, List.map_map, Function.comp, hopChain]
    · intro i hi
      have hs := h (i + 1) (Nat.succ_lt_succ hi)
      refine ⟨?_, ?_⟩
      · rw [hopChain_shift]
        exact hs.1
      · rw [hopChain_shift]
        exact hs.2

theorem safeGetLoop_chain_good (net : String → HttpResponse)
    (joinUrl : String → String → String) (maxBytes : Nat) :
    ∀ (k n : Nat) (current : String) (trace : List String), k < n →
      (∀ i < k, isRedirectResp (net (hopChain net joinUrl current i)) = true ∧
        is_attachment_url (hopChain net joinUrl current (i + 1)) = false) →
      isRedirectResp (net (hopChain net joinUrl current k)) = false →
      goodResp (net (hopChain net joinUrl current k)) maxBytes = true →
      safeGetLoop net joinUrl maxBytes n current trace =
        (trace.reverse ++ (List.range (k + 1)).map (hopChain net joinUrl current),
          .ok (net (hopChain net joinUrl current k)).body) := by
  intro k
  induction k with
  | zero =>
    intro n current trace hkn h hnr hg
    obtain ⟨m, rfl⟩ : ∃ m, n = m + 1 := ⟨n - 1, by omega⟩
    rw [safeGetLoop_good_step net joinUrl maxBytes m current trace hnr hg]
    refine Prod.ext ?_ rfl
    rw [List.reverse_cons]
    rfl
  | succ j ih =>
    intro n current trace hkn h hnr hg
    obtain ⟨m, rfl⟩ : ∃ m, n = m + 1 := ⟨n - 1, by omega⟩
    have h0 := h 0 (Nat.succ_pos j)
    rw [safeGetLoop_redirect_step net joinUrl maxBytes m current trace h0.1 h0.2]
    have hyp2 : ∀ i < j, isRedirectResp (net (hopChain net joinUrl
        (nextHop net joinUrl current) i)) = true ∧
        is_attachment_url (hopChain net joinUrl (nextHop net joinUrl current) (i + 1)) = false := by
      intro i hi
      have hs := h (i + 1) (Nat.succ_lt_succ hi)
      refine ⟨?_, ?_⟩
      · rw [hopChain_shift]
        exact hs.1
      · rw [hopChain_shift]
        exact hs.2
    have hnr2 : isRedirectResp (net (hopChain net joinUrl (nextHop net joinUrl current) j)) = false := by
      rw [hopChain_shift]
      exact hnr
    have hg2 : goodResp (net (hopChain net joinUrl (nextHop net joinUrl current) j)) maxBytes = true := by
      rw [hopChain_shift]
      exact hg
    rw [ih m (nextHop net joinUrl current) (current :: trace) (by omega) hyp2 hnr2 hg2]
    rw [hopChain_map_shift net joinUrl current (j + 1)]
    simp [List.reverse_cons, List.range_succ_eq_map, List.map_map, Function.comp, hopChain,
      hopChain_shift]

theorem safeGetLoop_chain_blocked (net : String → HttpResponse)
    (joinUrl : String → String → String) (maxBytes : Nat) :
    ∀ (k n : Nat) (current : String) (trace : List String), k < n →
      (∀ i < k, isRedirectResp (net (hopChain net joinUrl current i)) = true ∧
        is_attachment_url (hopChain net joinUrl current (i + 1)) = false) →
      isRedirectResp (net (hopChain net joinUrl current k)) = true →
      is_attachment_url (hopChain net joinUrl current (k + 1)) = true →
      safeGetLoop net joinUrl maxBytes n current trace =
        (trace.reverse ++ (List.range (k + 1)).map (hopChain net joinUrl current),
          .error (.redirectedBlocked (hopChain net joinUrl current (k + 1)))) := by
  intro k
  induction k with
  | zero =>
    intro n current trace hkn h hr hb
    obtain ⟨m, rfl⟩ : ∃ m, n = m + 1 := ⟨n - 1, by omega⟩
    rw [safeGetLoop_blocked_step net joinUrl maxBytes m current trace hr hb]
    refine Prod.ext ?_ rfl
    rw [List.reverse_cons]
    rfl
  | succ j ih =>
    intro n current trace hkn h hr hb
    obtain ⟨m, rfl⟩ : ∃ m, n = m + 1 := ⟨n - 1, by omega⟩
    have h0 := h 0 (Nat.succ_pos j)
    rw [safeGetLoop_redirect_step net joinUrl maxBytes m current trace h0.1 h0.2]
    have hyp2 : ∀ i < j, isRedirectResp (net (hopChain net joinUrl
        (nextHop net joinUrl current) i)) = true ∧
        is_attachment_url (hopChain net joinUrl (nextHop net joinUrl current) (i + 1)) = false := by
      intro i hi
      have hs := h (i + 1) (Nat.succ_lt_succ hi)
      refine ⟨?_, ?_⟩
      · rw [hopChain_shift]
        exact hs.1
      · rw [hopChain_shift]
        exact hs.2
    have hr2 : isRedirectResp (net (hopChain net joinUrl (nextHop net joinUrl current) j)) = true := by
      rw [hopChain_shift]
      exact hr
    have hb2 : is_attachment_url (hopChain net joinUrl (nextHop net joinUrl current) (j + 1)) = true := by
      rw [hopChain_shift]
      exact hb
    rw [ih m (nextHop net joinUrl current) (current :: trace) (by omega) hyp2 hr2 hb2]
    rw [hopChain_map_shift net joinUrl current (j + 1)]
    simp [List.reverse_cons, List.range_succ_eq_map, List.map_map, Function.comp, hopChain,
      hopChain_shift]

set_option maxRecDepth 4000 in
/-- C6 amended: the manual redirect loop re-checks the attachment
heuristic on every redirect target and fails the moment a target
matches; it follows at most 4 redirect hops (five requests in all): a
chain of five consecutive redirects fails with TooManyRedirects even if
valid HTML sits behind it, while at most 4 hops followed by a valid
HTML response succeed with the decoded body. -/
theorem C6_redirect_cap_amended :
    (∀ (net : String → HttpResponse) (joinUrl : String → String → String) (maxBytes : Nat)
       (u : String),
      is_attachment_url u = false →
      (∀ i < 5, isRedirectResp (net (hopChain net joinUrl u i)) = true ∧
        is_attachment_url (hopChain net joinUrl u (i + 1)) = false) →
      safe_get_html net joinUrl maxBytes u =
        ((List.range 5).map (hopChain net joinUrl u), .error .tooManyRedirects)) ∧
    (∀ (net : String → HttpResponse) (joinUrl : String → String → String) (maxBytes : Nat)
       (u : String) (k : Nat),
      is_attachment_url u = false → k < 5 →
      (∀ i < k, isRedirectResp (net (hopChain net joinUrl u i)) = true ∧
        is_attachment_url (hopChain net joinUrl u (i + 1)) = false) →
      isRedirectResp (net (hopChain net joinUrl u k)) = false →
      goodResp (net (hopChain net joinUrl u k)) maxBytes = true →
      safe_get_html net joinUrl maxBytes u =
        ((List.range (k + 1)).map (hopChain net joinUrl u),
          .ok (net (hopChain net joinUrl u k)).body)) ∧
    (∀ (net : String → HttpResponse) (joinUrl : String → String → String) (maxBytes : Nat)
       (u : String) (k : Nat),
      is_attachment_url u = false → k < 5 →
      (∀ i < k, isRedirectResp (net (hopChain net joinUrl u i)) = true ∧
        is_attachment_url (hopChain net joinUrl u (i + 1)) = false) →
      isRedirectResp (net (hopChain net joinUrl u k)) = true →
      is_attachment_url (hopChain net joinUrl u (k + 1)) = true →
      safe_get_html net joinUrl maxBytes u =
        ((List.range (k + 1)).map (hopChain net joinUrl u),
          .error (.redirectedBlocked (hopChain net joinUrl u (k + 1))))) := by
  refine ⟨fun net joinUrl maxBytes u hu hc => ?_,
    fun net joinUrl maxBytes u k hu hk hc hnr hg => ?_,
    fun net joinUrl maxBytes u k hu hk hc hr hb => ?_⟩
  · simp only [safe_get_html, hu, Bool.false_eq_true, if_false]
    have := safeGetLoop_all_redirect net joinUrl maxBytes 5 u [] hc
    simpa using this
  · simp only [safe_get_html, hu, Bool.false_eq_true, if_false]
    have := safeGetLoop_chain_good net joinUrl maxBytes k 5 u [] hk hc hnr hg
    simpa using this
  · simp only [safe_get_html, hu, Bool.false_eq_true, if_false]
    have := safeGetLoop_chain_blocked net joinUrl maxBytes k 5 u [] hk hc hr hb
    simpa using this

def redirTo (l : String) : HttpResponse :=
  { status := 302, location := some l, contentDisposition := none, contentType := none,
    contentLength := none, body := "" }

def htmlOk : HttpResponse :=
  { status := 200, location := none, contentDisposition := none,
    contentType := some "text/html", contentLength := some "2", body := "ok" }

def netC6 : String → HttpResponse := fun u =>
  if u = "http://s.st/p0" then redirTo "http://s.st/p1"
  else if u = "http://s.st/p1" then redirTo "http://s.st/p2"
  else if u = "http://s.st/p2" then redirTo "http://s.st/p3"
  else if u = "http://s.st/p3" then redirTo "http://s.st/p4"
  else if u = "http://s.st/p4" then redirTo "http://s.st/p5"
  else htmlOk

/-- C6 counterexample: a chain of exactly five redirect hops followed by
a valid HTML response; the engine issues five requests, sees five
redirects and fails with TooManyRedirects without ever requesting the
final page, so a fetch with at most the claimed cap of five redirect
hops followed by valid HTML does not succeed. -/
theorem C6_counterexample :
    (∀ i < 5, isRedirectResp (netC6 (hopChain netC6 exJoin "http://s.st/p0" i)) = true ∧
      is_attachment_url (hopChain netC6 exJoin "http://s.st/p0" (i + 1)) = false) ∧
    goodResp (netC6 (hopChain netC6 exJoin "http://s.st/p0" 5)) 3000000 = true ∧
    isRedirectResp (netC6 (hopChain netC6 exJoin "http://s.st/p0" 5)) = false ∧
    safe_get_html netC6 exJoin 3000000 "http://s.st/p0" =
      (["http://s.st/p0", "http://s.st/p1", "http://s.st/p2", "http://s.st/p3", "http://s.st/p4"],
        .error .tooManyRedirects) :=
  ⟨by decide, by decide, by decide, rfl⟩

def netC6w : String → HttpResponse := fun u =>
  if u = "http://w.st/p0" then redirTo "http://w.st/p1"
  else if u = "http://w.st/p1" then redirTo "http://w.st/p2"
  else htmlOk

theorem C6_witness :
    is_attachment_url "http://w.st/p0" = false ∧
    safe_get_html netC6w exJoin 3000000 "http://w.st/p0" =
      (["http://w.st/p0", "http://w.st/p1", "http://w.st/p2"], .ok "ok") :=
  ⟨by decide,
   (C6_redirect_cap_amended.2.1 netC6w exJoin 3000000 "http://w.st/p0" 2 (by decide)
     (by decide) (by decide) (by decide) (by decide)).trans rfl⟩
